import Mathlib

/-!
Shallow embedding of the EDUPLANNER genetic-algorithm timetable engine
(`core/genetic_algorithm.py` together with the store-level data of
`core/models.py`), with theorems checking its specification.

Conventions used throughout:
* Python dictionaries keyed by ids become association lists kept in
  insertion order; Python sets become duplicate-free lists in first-visit
  order.
* Randomness (`random.choice`, `random.random`, `random.sample`,
  `random.shuffle`) is modelled by an explicit oracle stream of naturals;
  each primitive consumes a prefix of the stream and returns the rest.
  `random.random()` is modelled as a rational in `[0,1)` of resolution
  `2 ^ 32`.
* Python calls that can raise (`random.choice` on an empty list, `max` of
  an empty sequence, `Model.objects.get` finding no row) return `Option`;
  `none` models the exception propagating out of the engine.
* Fitness is exact rational arithmetic (`ℚ`); the Python `float` score is
  built from integer weights plus a single division (the workload mean).
-/

namespace EduPlanner

inductive SubjectType
  | THEORY
  | LAB
  | ELECTIVE
deriving Repr, DecidableEq

inductive Day
  | MON
  | TUE
  | WED
  | THU
  | FRI
deriving Repr, DecidableEq

inductive SlotKind
  | MORNING
  | AFTERNOON
  | LUNCH
deriving Repr, DecidableEq

/-- A single timetable assignment (dataclass `Gene` in the source). -/
structure Gene where
  class_id : Nat
  subject_id : Nat
  faculty_id : Nat
  time_slot_id : Nat
  is_lab : Bool := false
  assistant_faculty_id : Option Nat := none
deriving Repr, DecidableEq

/-- A complete timetable solution (dataclass `Chromosome` in the source). -/
structure Chromosome where
  genes : List Gene := []
  fitness : ℚ := 0
deriving Repr, DecidableEq

/-- `Chromosome.copy`: a deep copy; in this value-semantics embedding it
rebuilds the same value. -/
def Chromosome.copy (c : Chromosome) : Chromosome :=
  { genes := c.genes, fitness := c.fitness }

/-- Row of `ClassSection.objects.values('id', 'name', 'semester_id')`. -/
structure ClassRec where
  id : Nat
  name : String
  semester_id : Nat
deriving Repr, DecidableEq

/-- Row of `Subject.objects.values('id', 'name', 'code', 'subject_type',
'hours_per_week', 'semester_id')`. -/
structure SubjectRec where
  id : Nat
  name : String
  code : String
  subject_type : SubjectType
  hours_per_week : Nat
  semester_id : Nat
deriving Repr, DecidableEq

/-- Faculty dictionary handed to the GA: the queryset values plus the
`max_hours` entry added by the caller from `Faculty.WORKLOAD_LIMITS`. -/
structure FacultyRec where
  id : Nat
  name : String
  designation : String
  max_hours : Nat
deriving Repr, DecidableEq

/-- Row of `TimeSlot.objects.values('id', 'day', 'period')` after the
teaching-slot filter. -/
structure TimeSlotRec where
  id : Nat
  day : Day
  period : Nat
deriving Repr, DecidableEq

/-- Python `set(...)` materialised as a duplicate-free list in first-visit
order. -/
def pyset [BEq α] (l : List α) : List α :=
  l.foldl (fun acc x => if acc.contains x then acc else acc ++ [x]) []

/-- Dictionary read with a default (`dict.get(k, d)`); keys are unique, so
the first hit is the only one. -/
def alookup [BEq κ] : List (κ × α) → κ → α → α
  | [], _, d => d
  | kv :: rest, k, d => if kv.1 == k then kv.2 else alookup rest k d

/-- defaultdict-style update: transform the entry at `k` by `f`, starting
from `d` when the key is absent; new keys are appended at the end, matching
Python dict insertion order. -/
def aupdate [BEq κ] : List (κ × α) → κ → α → (α → α) → List (κ × α)
  | [], k, d, f => [(k, f d)]
  | kv :: rest, k, d, f =>
    if kv.1 == k then (kv.1, f kv.2) :: rest
    else kv :: aupdate rest k d f

/-- Python `abs` on the rational fitness scale. -/
def pyabs (q : ℚ) : ℚ := if q < 0 then -q else q

/-- The oracle stream of naturals driving every pseudo-random draw. -/
abbrev RNG := Nat → Nat

/-- The oracle after one draw has been consumed. -/
def rngTail (r : RNG) : RNG := fun n => r (n + 1)

/-- Consume one natural from the oracle. -/
def randNat (r : RNG) : Nat × RNG :=
  (r 0, rngTail r)

/-- Models `random.random()`: a rational in `[0,1)` of resolution `2 ^ 32`. -/
def randUnit (r : RNG) : ℚ × RNG :=
  (((r 0 % 4294967296 : Nat) : ℚ) / 4294967296, rngTail r)

/-- Models `random.choice(l)`: a uniform element of `l`; `none` models the
`IndexError` Python raises when `l` is empty. -/
def randChoice (l : List α) (r : RNG) : Option (α × RNG) :=
  match l.get? (r 0 % l.length) with
  | some a => some (a, rngTail r)
  | none => none

/-- Like `randChoice` but also reports the position drawn, which stands in
for the object identity of the chosen list element. -/
def randChoiceIdx (l : List α) (r : RNG) : Option ((Nat × α) × RNG) :=
  match l.get? (r 0 % l.length) with
  | some a => some ((r 0 % l.length, a), rngTail r)
  | none => none

/-- Models `random.sample(l, k)`: `k` distinct positions drawn without
replacement; `none` models the `ValueError` when `k` exceeds the size. -/
def randSample (l : List α) : Nat → RNG → Option (List α × RNG)
  | 0, r => some ([], r)
  | k' + 1, r =>
    match l.get? (r 0 % l.length) with
    | none => none
    | some a =>
      match randSample (l.eraseIdx (r 0 % l.length)) k' (rngTail r) with
      | none => none
      | some (rest, r'') => some (a :: rest, r'')

/-- Fisher-Yates body for `randShuffle`, with fuel equal to the length. -/
def shuffleGo : Nat → List α → RNG → List α × RNG
  | 0, l, r => (l, r)
  | fuel + 1, l, r =>
    match l with
    | [] => ([], r)
    | _ :: _ =>
      match l.get? (r 0 % l.length) with
      | none => (l, rngTail r)
      | some a =>
        let res := shuffleGo fuel (l.eraseIdx (r 0 % l.length)) (rngTail r)
        (a :: res.1, res.2)

/-- Models `random.shuffle(l)`: a uniform permutation of `l`. -/
def randShuffle (l : List α) (r : RNG) : List α × RNG :=
  shuffleGo l.length l r

/-- Constructor arguments of class `GeneticAlgorithm` (all have defaults). -/
structure GAParams where
  population_size : Nat := 100
  generations : Nat := 500
  crossover_rate : ℚ := 4 / 5
  mutation_rate : ℚ := 1 / 10
  elite_count : Nat := 5
  tournament_size : Nat := 5
deriving Repr, DecidableEq

/-- The data loaded by `GeneticAlgorithm.load_data`.  The derived maps the
Python constructor precomputes (`lab_subjects`, `subject_info`,
`class_subjects`, `faculty_preferences` lookups, `faculty_workload_limits`)
are recovered by the functions below, assuming the store's primary keys are
distinct, which Django guarantees. -/
structure Problem where
  classes : List ClassRec
  subjects : List SubjectRec
  faculties : List FacultyRec
  time_slots : List TimeSlotRec
  faculty_preferences : List (Nat × List String)
  faculty_history : List (Nat × List String)
deriving Repr, DecidableEq

/-- `self.subject_info[s_id]` (subject ids are unique). -/
def subject_info (p : Problem) (sid : Nat) : Option SubjectRec :=
  p.subjects.find? (fun s => s.id == sid)

/-- `self.class_subjects[class_id]`: subject ids whose semester equals the
class's semester, in subject order, exactly as the double loop of
`load_data` builds them. -/
def class_subjects (p : Problem) (cid : Nat) : List Nat :=
  match p.classes.find? (fun c => c.id == cid) with
  | none => []
  | some c =>
    (p.subjects.filter (fun s => s.semester_id == c.semester_id)).map (·.id)

/-- `self.faculty_preferences.get(fid, [])`. -/
def prefs_of (p : Problem) (fid : Nat) : List String :=
  alookup p.faculty_preferences fid []

/-- `self.faculty_history.get(fid, [])`. -/
def history_of (p : Problem) (fid : Nat) : List String :=
  alookup p.faculty_history fid []

/-- `self.faculty_workload_limits.get(fid, 20)`. -/
def workload_limit (p : Problem) (fid : Nat) : Nat :=
  match p.faculties.find? (fun f => f.id == fid) with
  | some f => f.max_hours
  | none => 20

/-- `Gene` subject code lookup used by the fitness function:
`self.subject_info.get(gene.subject_id, {}).get('code', '')`. -/
def subject_code_of (p : Problem) (sid : Nat) : String :=
  match subject_info p sid with
  | some s => s.code
  | none => ""

/-- `GeneticAlgorithm._get_eligible_faculty_for_subject`. -/
def get_eligible_faculty_for_subject (p : Problem) (subject_id : Nat) :
    List Nat :=
  let subject_code := subject_code_of p subject_id
  let eligible := (p.faculties.filter (fun f =>
    let preferences := prefs_of p f.id
    preferences.contains subject_code || preferences.isEmpty)).map (·.id)
  if eligible.isEmpty then p.faculties.map (·.id) else eligible

/-- Group the still-free teaching slots by day, in first-encounter day
order, as the `slots_by_day` defaultdict of `_find_lab_slots` does. -/
def slots_by_day (p : Problem) (available_slots used_slots : List Nat) :
    List (Day × List TimeSlotRec) :=
  (p.time_slots.filter (fun s =>
      available_slots.contains s.id && !used_slots.contains s.id)).foldl
    (fun acc s => aupdate acc s.day [] (fun l => l ++ [s])) []

/-- Sorting a day's slots by period (`day_slots.sort(key=lambda x:
x['period'])`; Python's sort is stable, as is insertion sort). -/
def sortByPeriod (l : List TimeSlotRec) : List TimeSlotRec :=
  l.insertionSort (fun a b => a.period ≤ b.period)

/-- First loop of `_find_lab_slots` for one day: a morning block
`{1,2,3}`, else an afternoon block `{5,6,7}`, else nothing. -/
def tryPreferredBlock (day_slots : List TimeSlotRec) : Option (List Nat) :=
  let sorted := sortByPeriod day_slots
  let morning_slots := sorted.filter (fun s => s.period ≤ 3)
  let periodsM := morning_slots.map (·.period)
  if 3 ≤ morning_slots.length &&
      (periodsM.contains 1 && periodsM.contains 2 && periodsM.contains 3) then
    some (((morning_slots.filter (fun s => s.period ≤ 3)).map (·.id)).take 3)
  else
    let afternoon_slots := sorted.filter (fun s => 5 ≤ s.period)
    let periodsA := afternoon_slots.map (·.period)
    if 3 ≤ afternoon_slots.length &&
        (periodsA.contains 5 && periodsA.contains 6 && periodsA.contains 7) then
      some (((afternoon_slots.filter (fun s => 5 ≤ s.period)).map (·.id)).take 3)
    else
      none

/-- Sliding-window scan of the fallback loop of `_find_lab_slots`. -/
def findConsecutiveTriple : List TimeSlotRec → Option (List Nat)
  | a :: b :: c :: rest =>
    if b.period == a.period + 1 && c.period == a.period + 2 then
      some [a.id, b.id, c.id]
    else
      findConsecutiveTriple (b :: c :: rest)
  | _ => none

/-- Second loop of `_find_lab_slots` for one day: any three consecutive
periods. -/
def tryAnyBlock (day_slots : List TimeSlotRec) : Option (List Nat) :=
  if 3 ≤ day_slots.length then
    findConsecutiveTriple (sortByPeriod day_slots)
  else
    none

/-- `GeneticAlgorithm._find_lab_slots`. -/
def find_lab_slots (p : Problem) (available_slots used_slots : List Nat) :
    List Nat :=
  let byDay := slots_by_day p available_slots used_slots
  match byDay.findSome? (fun kv => tryPreferredBlock kv.2) with
  | some ids => ids
  | none =>
    match byDay.findSome? (fun kv => tryAnyBlock kv.2) with
    | some ids => ids
    | none => []

/-- Faculty selection for one lab of `_create_random_chromosome`: a
distinct random (main, assistant) pair when two or more faculty are
eligible, the single eligible faculty alone, or (eligibility empty, hence
no faculty at all) `random.choice` over the empty faculty list — the
modelled `IndexError`. -/
def pickLabFaculty (p : Problem) (lab_id : Nat) (r : RNG) :
    Option ((Nat × Option Nat) × RNG) :=
  let eligible_faculty := get_eligible_faculty_for_subject p lab_id
  if 2 ≤ eligible_faculty.length then
    match randChoice eligible_faculty r with
    | none => none
    | some (main_faculty, r1) =>
      match randChoice
          (eligible_faculty.filter (fun f => f != main_faculty)) r1 with
      | none => none
      | some (assistant_faculty, r2) =>
        some ((main_faculty, some assistant_faculty), r2)
  else if eligible_faculty.length == 1 then
    match eligible_faculty.head? with
    | some main_faculty => some ((main_faculty, none), r)
    | none => none
  else
    match randChoice (p.faculties.map (·.id)) r with
    | none => none
    | some (main_faculty, r1) => some ((main_faculty, none), r1)

/-- Lab block of `_create_random_chromosome` for one class: loop over (at
most the first two) lab subject ids, claiming a 3-slot block and a faculty
pair for each.  Returns the extended gene list, the used-slot set and the
advanced oracle; `none` is the `IndexError` of `random.choice` on an empty
faculty list. -/
def scheduleLabs (p : Problem) (class_id : Nat) :
    List Nat → List Gene → List Nat → RNG →
    Option (List Gene × List Nat × RNG)
  | [], genes, used_slots, r => some (genes, used_slots, r)
  | lab_id :: rest, genes, used_slots, r =>
    let available_slots := p.time_slots.map (·.id)
    let lab_slots := find_lab_slots p available_slots used_slots
    if lab_slots.isEmpty then
      scheduleLabs p class_id rest genes used_slots r
    else
      match pickLabFaculty p lab_id r with
      | none => none
      | some ((main_faculty, assistant_faculty), r') =>
        let newGenes := lab_slots.map (fun slot_id =>
          { class_id := class_id, subject_id := lab_id,
            faculty_id := main_faculty, time_slot_id := slot_id,
            is_lab := true,
            assistant_faculty_id := assistant_faculty : Gene })
        scheduleLabs p class_id rest (genes ++ newGenes)
          (used_slots ++ lab_slots) r'

/-- Theory block of `_create_random_chromosome` for one class: one faculty
per subject, `hours_per_week` genes on shuffled free slots. -/
def scheduleTheory (p : Problem) (class_id : Nat) :
    List Nat → List Gene → List Nat → RNG →
    Option (List Gene × List Nat × RNG)
  | [], genes, used_slots, r => some (genes, used_slots, r)
  | subject_id :: rest, genes, used_slots, r =>
    let available_slots := p.time_slots.map (·.id)
    let hours_needed :=
      match subject_info p subject_id with
      | some s => s.hours_per_week
      | none => 3
    let eligible_faculty := get_eligible_faculty_for_subject p subject_id
    let chosen : Option (Nat × RNG) :=
      if eligible_faculty.isEmpty then
        randChoice (p.faculties.map (·.id)) r
      else
        randChoice eligible_faculty r
    match chosen with
    | none => none
    | some (faculty_id, r1) =>
      let remaining_slots :=
        available_slots.filter (fun s => !used_slots.contains s)
      let (shuffled, r2) := randShuffle remaining_slots r1
      let taken := shuffled.take hours_needed
      let newGenes := taken.map (fun slot_id =>
        { class_id := class_id, subject_id := subject_id,
          faculty_id := faculty_id, time_slot_id := slot_id,
          is_lab := false, assistant_faculty_id := none : Gene })
      scheduleTheory p class_id rest (genes ++ newGenes)
        (used_slots ++ taken) r2

/-- Per-class body of `_create_random_chromosome`. -/
def scheduleClass (p : Problem) (genes : List Gene) (c : ClassRec)
    (r : RNG) : Option (List Gene × RNG) :=
  let class_subject_ids := class_subjects p c.id
  let lab_subjects_for_class := class_subject_ids.filter (fun sid =>
    (subject_info p sid).any (fun s => s.subject_type == SubjectType.LAB))
  let theory_subjects_for_class := class_subject_ids.filter (fun sid =>
    (subject_info p sid).any (fun s => s.subject_type == SubjectType.THEORY))
  match scheduleLabs p c.id (lab_subjects_for_class.take 2) genes [] r with
  | none => none
  | some (genes1, used_slots, r1) =>
    match scheduleTheory p c.id theory_subjects_for_class genes1
        used_slots r1 with
    | none => none
    | some (genes2, _, r2) => some (genes2, r2)

/-- Fold of `scheduleClass` over the class list. -/
def scheduleClasses (p : Problem) :
    List ClassRec → List Gene → RNG → Option (List Gene × RNG)
  | [], genes, r => some (genes, r)
  | c :: rest, genes, r =>
    match scheduleClass p genes c r with
    | none => none
    | some (genes', r') => scheduleClasses p rest genes' r'

/-- `GeneticAlgorithm._create_random_chromosome`. -/
def create_random_chromosome (p : Problem) (r : RNG) :
    Option (Chromosome × RNG) :=
  match scheduleClasses p p.classes [] r with
  | none => none
  | some (genes, r') => some ({ genes := genes, fitness := 0 }, r')

/-- `GeneticAlgorithm.initialize_population` body (a loop of
`population_size` calls to `_create_random_chromosome`). -/
def init_population (p : Problem) :
    Nat → RNG → Option (List Chromosome × RNG)
  | 0, r => some ([], r)
  | n + 1, r =>
    match create_random_chromosome p r with
    | none => none
    | some (c, r') =>
      match init_population p n r' with
      | none => none
      | some (rest, r'') => some (c :: rest, r'')

/-- `GeneticAlgorithm._check_lab_continuity`. -/
def check_lab_continuity (p : Problem) (slot_ids : List Nat) : Bool :=
  if slot_ids.length != 3 then false
  else
    let slots := p.time_slots.filter (fun ts => slot_ids.contains ts.id)
    if slots.length != 3 then false
    else if (pyset (slots.map (·.day))).length != 1 then false
    else
      match (slots.map (·.period)).insertionSort (· ≤ ·) with
      | [p0, p1, p2] => p1 == p0 + 1 && p2 == p1 + 1
      | _ => false

/-- `GeneticAlgorithm._check_lab_timing`. -/
def check_lab_timing (p : Problem) (slot_ids : List Nat) : Bool :=
  let slots := p.time_slots.filter (fun ts => slot_ids.contains ts.id)
  slots.all (fun s => s.period ≤ 3) || slots.all (fun s => 5 ≤ s.period)

/-- Accumulator state of the gene loop of `calculate_fitness`. -/
structure FitState where
  faculty_schedule : List (Nat × List Nat)
  class_schedule : List (Nat × List Nat)
  faculty_hours : List (Nat × Nat)
  class_labs : List (Nat × List Gene)
  fitness : ℚ
deriving Repr, DecidableEq

def initFitState : FitState :=
  { faculty_schedule := [], class_schedule := [], faculty_hours := [],
    class_labs := [], fitness := 0 }

/-- defaultdict(set) insertion used by the schedules. -/
def schedAdd (m : List (Nat × List Nat)) (k v : Nat) :
    List (Nat × List Nat) :=
  aupdate m k [] (fun s => if s.contains v then s else s ++ [v])

/-- One iteration of the gene loop of `calculate_fitness`.  Note the Python
guard `if gene.assistant_faculty_id:` is truthiness: `None` and id `0` both
skip the assistant accounting. -/
def fitStep (p : Problem) (st : FitState) (g : Gene) : FitState :=
  let fit1 :=
    if (alookup st.faculty_schedule g.faculty_id []).contains g.time_slot_id
    then st.fitness + (-1000) else st.fitness
  let fs1 := schedAdd st.faculty_schedule g.faculty_id g.time_slot_id
  let assistant :=
    match g.assistant_faculty_id with
    | some af => if af == 0 then none else some af
    | none => none
  let fit2 :=
    match assistant with
    | some af =>
      if (alookup fs1 af []).contains g.time_slot_id
      then fit1 + (-1000) else fit1
    | none => fit1
  let fs2 :=
    match assistant with
    | some af => schedAdd fs1 af g.time_slot_id
    | none => fs1
  let fit3 :=
    if (alookup st.class_schedule g.class_id []).contains g.time_slot_id
    then fit2 + (-1000) else fit2
  let cs1 := schedAdd st.class_schedule g.class_id g.time_slot_id
  let fh1 := aupdate st.faculty_hours g.faculty_id 0 (· + 1)
  let fh2 :=
    match assistant with
    | some af => aupdate fh1 af 0 (· + 1)
    | none => fh1
  let cl1 :=
    if g.is_lab then aupdate st.class_labs g.class_id [] (fun l => l ++ [g])
    else st.class_labs
  let fit4 :=
    if (prefs_of p g.faculty_id).contains (subject_code_of p g.subject_id)
    then fit3 + 100 else fit3
  { faculty_schedule := fs2, class_schedule := cs1, faculty_hours := fh2,
    class_labs := cl1, fitness := fit4 }

/-- Workload-limit loop of `calculate_fitness`. -/
def workloadPenalty (p : Problem) (faculty_hours : List (Nat × Nat))
    (fit : ℚ) : ℚ :=
  faculty_hours.foldl (fun acc kv =>
    let max_hours := workload_limit p kv.1
    if max_hours < kv.2 then
      acc + (-500) * ((kv.2 : ℚ) - (max_hours : ℚ))
    else acc) fit

/-- Lab-constraint loop of `calculate_fitness` for one class's lab genes. -/
def labPenaltyForClass (p : Problem) (lab_genes : List Gene) (fit : ℚ) : ℚ :=
  let lab_subjects_scheduled := pyset (lab_genes.map (·.subject_id))
  lab_subjects_scheduled.foldl (fun acc sid =>
    let subject_lab_genes := lab_genes.filter (fun g => g.subject_id == sid)
    let slot_ids := subject_lab_genes.map (·.time_slot_id)
    let acc1 := if !check_lab_continuity p slot_ids then acc + (-500) else acc
    if !check_lab_timing p slot_ids then acc1 + (-100) else acc1) fit

/-- Lab-constraint loop of `calculate_fitness`. -/
def labPenalty (p : Problem) (class_labs : List (Nat × List Gene))
    (fit : ℚ) : ℚ :=
  class_labs.foldl (fun acc kv => labPenaltyForClass p kv.2 acc) fit

/-- Workload-balance loop of `calculate_fitness`. -/
def balancePenalty (faculty_hours : List (Nat × Nat)) (fit : ℚ) : ℚ :=
  if faculty_hours.isEmpty then fit
  else
    let avg_hours : ℚ :=
      ((faculty_hours.map (fun kv => (kv.2 : ℚ))).sum) /
        (faculty_hours.length : ℚ)
    faculty_hours.foldl (fun acc kv =>
      let deviation := pyabs ((kv.2 : ℚ) - avg_hours)
      if 5 < deviation then acc + (-30) * (deviation - 5) else acc) fit

/-- Subject-rotation loop of `calculate_fitness`. -/
def rotationPenalty (p : Problem) (genes : List Gene) (fit : ℚ) : ℚ :=
  genes.foldl (fun acc g =>
    if (history_of p g.faculty_id).contains (subject_code_of p g.subject_id)
    then acc + (-50) else acc) fit

/-- `GeneticAlgorithm.calculate_fitness`: the returned score.  The source
also assigns the score to `chromosome.fitness`; that in-place write is
`applyFitness` below. -/
def calculate_fitness (p : Problem) (c : Chromosome) : ℚ :=
  let st := c.genes.foldl (fitStep p) initFitState
  let fit1 := workloadPenalty p st.faculty_hours st.fitness
  let fit2 := labPenalty p st.class_labs fit1
  let fit3 := balancePenalty st.faculty_hours fit2
  rotationPenalty p c.genes fit3

/-- The in-place `chromosome.fitness = fitness` write performed by
`calculate_fitness`, as a record update. -/
def applyFitness (p : Problem) (c : Chromosome) : Chromosome :=
  { c with fitness := calculate_fitness p c }

/-- Python `max(tournament, key=lambda c: c.fitness)`: the first maximal
element; `none` models the `ValueError` on an empty sequence. -/
def maxByFitness : List Chromosome → Option Chromosome
  | [] => none
  | c :: rest =>
    some (rest.foldl (fun best x => if best.fitness < x.fitness then x
      else best) c)

/-- `GeneticAlgorithm.tournament_selection`. -/
def tournament_selection (params : GAParams)
    (population : List Chromosome) (r : RNG) :
    Option (Chromosome × RNG) :=
  match randSample population
      (min params.tournament_size population.length) r with
  | none => none
  | some (tournament, r') =>
    match maxByFitness tournament with
    | none => none
    | some c => some (c, r')

/-- Partition of a parent's genes by class (`p1_by_class`), in
first-encounter class order. -/
def genesByClass (genes : List Gene) : List (Nat × List Gene) :=
  genes.foldl (fun acc g =>
    aupdate acc g.class_id [] (fun l => l ++ [g])) []

/-- `GeneticAlgorithm.crossover`.  The Python `set(k1) | set(k2)` key union
is modelled in first-encounter order; `none` is unreachable here because the
sample size never exceeds the key-list length. -/
def crossover (params : GAParams) (parent1 parent2 : Chromosome)
    (r : RNG) : Option ((Chromosome × Chromosome) × RNG) :=
  let (u, r1) := randUnit r
  if params.crossover_rate < u then
    some ((parent1.copy, parent2.copy), r1)
  else
    let p1_by_class := genesByClass parent1.genes
    let p2_by_class := genesByClass parent2.genes
    let all_classes :=
      pyset (p1_by_class.map (·.1) ++ p2_by_class.map (·.1))
    match randSample all_classes (all_classes.length / 2) r1 with
    | none => none
    | some (classes_to_swap, r2) =>
      let pick := fun (own other : List (Nat × List Gene)) (cid : Nat) =>
        if classes_to_swap.contains cid then alookup other cid []
        else alookup own cid []
      let child1_genes :=
        (all_classes.map (pick p1_by_class p2_by_class)).flatten
      let child2_genes :=
        (all_classes.map (pick p2_by_class p1_by_class)).flatten
      some (({ parent1.copy with genes := child1_genes },
             { parent2.copy with genes := child2_genes }), r2)

/-- `GeneticAlgorithm.mutate`.  Gene objects are identified with their list
positions; the structural `g != gene1` comparison of the Python dataclass
is kept.  The `none` fallbacks of the inner draws return the chromosome
unchanged; they are unreachable because each candidate list is checked to
be non-empty first, where Python would raise. -/
def mutate (p : Problem) (params : GAParams) (chromosome : Chromosome)
    (r : RNG) : Chromosome × RNG :=
  let (u, r1) := randUnit r
  if params.mutation_rate < u then
    (chromosome, r1)
  else
    let mutated := chromosome.copy
    let (mt, r2) := randNat r1
    let mutation_type :=
      (["swap_slot", "change_faculty", "swap_subjects"].get? (mt % 3)).getD
        "swap_slot"
    if mutated.genes.isEmpty then
      (mutated, r2)
    else if mutation_type == "swap_slot" then
      match randChoiceIdx mutated.genes r2 with
      | none => (mutated, r2)
      | some ((i, gene1), r3) =>
        let same_class_genes := mutated.genes.enum.filter (fun jg =>
          jg.2.class_id == gene1.class_id && jg.2 != gene1 && !jg.2.is_lab)
        match randChoice same_class_genes r3 with
        | none => (mutated, r3)
        | some ((j, gene2), r4) =>
          let genes' :=
            (mutated.genes.set i
              { gene1 with time_slot_id := gene2.time_slot_id }).set j
              { gene2 with time_slot_id := gene1.time_slot_id }
          ({ mutated with genes := genes' }, r4)
    else if mutation_type == "change_faculty" then
      match randChoiceIdx mutated.genes r2 with
      | none => (mutated, r2)
      | some ((i, gene), r3) =>
        let eligible := get_eligible_faculty_for_subject p gene.subject_id
        if eligible.isEmpty then (mutated, r3)
        else
          match randChoice eligible r3 with
          | none => (mutated, r3)
          | some (fid, r4) =>
            ({ mutated with
                genes := mutated.genes.set i { gene with faculty_id := fid } },
              r4)
    else
      match randChoiceIdx mutated.genes r2 with
      | none => (mutated, r2)
      | some ((i, gene1), r3) =>
        let same_slot_genes := mutated.genes.enum.filter (fun jg =>
          jg.2.time_slot_id == gene1.time_slot_id &&
            jg.2.class_id != gene1.class_id)
        match randChoice same_slot_genes r3 with
        | none => (mutated, r3)
        | some ((j, gene2), r4) =>
          let genes' :=
            (mutated.genes.set i
              { gene1 with faculty_id := gene2.faculty_id }).set j
              { gene2 with faculty_id := gene1.faculty_id }
          ({ mutated with genes := genes' }, r4)

/-- Inner `while len(new_population) < population_size` loop of `evolve`.
Each pass appends one or two evaluated children; the fuel (initially
`population_size`) bounds the iteration count, which suffices because each
pass appends at least one chromosome. -/
def fillPopulation (p : Problem) (params : GAParams)
    (population : List Chromosome) :
    Nat → List Chromosome → RNG → Option (List Chromosome × RNG)
  | 0, acc, r => some (acc, r)
  | fuel + 1, acc, r =>
    if params.population_size ≤ acc.length then some (acc, r)
    else
      match tournament_selection params population r with
      | none => none
      | some (parent1, r1) =>
        match tournament_selection params population r1 with
        | none => none
        | some (parent2, r2) =>
          match crossover params parent1 parent2 r2 with
          | none => none
          | some ((child1, child2), r3) =>
            let (child1, r4) := mutate p params child1 r3
            let (child2, r5) := mutate p params child2 r4
            let child1 := applyFitness p child1
            let child2 := applyFitness p child2
            let acc1 := acc ++ [child1]
            let acc2 :=
              if acc1.length < params.population_size then acc1 ++ [child2]
              else acc1
            fillPopulation p params population fuel acc2 r5

/-- Descending stable sort by fitness
(`population.sort(key=..., reverse=True)`). -/
def sortByFitnessDesc (population : List Chromosome) : List Chromosome :=
  population.insertionSort (fun a b => b.fitness ≤ a.fitness)

/-- Generation loop of `GeneticAlgorithm.evolve`, by recursion on the
remaining generations.  `none` models an exception escaping the loop
(`population[0]` on an empty population, `population[i]` with
`i < elite_count` out of range, or a raising operator call). -/
def evolveLoop (p : Problem) (params : GAParams) :
    Nat → List Chromosome → Chromosome → List ℚ → RNG →
    Option (Chromosome × List ℚ)
  | 0, _, best_ever, fitness_history, _ => some (best_ever, fitness_history)
  | gens + 1, population, best_ever, fitness_history, r =>
    let sorted := sortByFitnessDesc population
    match sorted.head? with
    | none => none
    | some current_best =>
      let best_ever :=
        if best_ever.fitness < current_best.fitness then current_best.copy
        else best_ever
      let fitness_history := fitness_history ++ [current_best.fitness]
      if 0 ≤ current_best.fitness then
        some (best_ever, fitness_history)
      else if sorted.length < params.elite_count then
        none
      else
        let elites := (sorted.take params.elite_count).map Chromosome.copy
        match fillPopulation p params sorted params.population_size
            elites r with
        | none => none
        | some (new_population, r') =>
          evolveLoop p params gens new_population best_ever
            fitness_history r'

/-- `GeneticAlgorithm.evolve`.  The per-generation callback only observes
`(generation, best_fitness)` and is omitted. -/
def evolve (p : Problem) (params : GAParams) (r : RNG) :
    Option (Chromosome × List ℚ) :=
  match init_population p params.population_size r with
  | none => none
  | some (population, r1) =>
    let population := population.map (applyFitness p)
    match maxByFitness population with
    | none => none
    | some best_ever =>
      evolveLoop p params params.generations population best_ever [] r1

/-- Row of the `Department` table. -/
structure DeptRec where
  id : Nat
  name : String
  code : String
deriving Repr, DecidableEq

/-- Row of the `Semester` table. -/
structure SemesterRec where
  id : Nat
  department_id : Nat
  number : Nat
deriving Repr, DecidableEq

/-- Row of the `Faculty` table (the fields the engine reads). -/
structure StoreFaculty where
  id : Nat
  name : String
  designation : String
  preferences : String
  is_active : Bool
  department_id : Option Nat
deriving Repr, DecidableEq

/-- Row of the `TimeSlot` table (the fields the engine reads). -/
structure StoreSlot where
  id : Nat
  day : Day
  period : Nat
  slot_type : SlotKind
deriving Repr, DecidableEq

/-- Row of the `TimetableEntry` table (the fields the engine writes). -/
structure EntryRow where
  class_section_id : Nat
  subject_id : Nat
  faculty_id : Nat
  time_slot_id : Nat
  semester_instance : String
  is_lab_session : Bool
  assistant_faculty_id : Option Nat
deriving Repr, DecidableEq

/-- Row of the `FacultySubjectAssignment` table. -/
structure AssignRow where
  faculty_id : Nat
  subject_id : Nat
  semester_instance : String
  class_section_id : Option Nat
  is_main : Bool
deriving Repr, DecidableEq

/-- The `SystemConfiguration` singleton. -/
structure ConfigRec where
  active_semester_type : String
  current_academic_year : String
deriving Repr, DecidableEq

/-- Snapshot of the external store read and written by
`generate_department_timetable`. -/
structure Store where
  departments : List DeptRec
  config : Option ConfigRec
  semesters : List SemesterRec
  classes : List ClassRec
  subjects : List SubjectRec
  faculties : List StoreFaculty
  time_slots : List StoreSlot
  entries : List EntryRow
  assignments : List AssignRow
deriving Repr, DecidableEq

/-- `Faculty.WORKLOAD_LIMITS.get(designation, 20)`. -/
def workloadLimitFor (designation : String) : Nat :=
  if designation == "PROFESSOR" then 10
  else if designation == "ASSOCIATE_PROFESSOR" then 15
  else if designation == "ASSISTANT_PROFESSOR" then 23
  else 20

/-- The teaching slots `TimeSlot.objects.filter(slot_type__in=['MORNING',
'AFTERNOON'])` of the store. -/
def teachingSlots (store : Store) : List StoreSlot :=
  store.time_slots.filter (fun s =>
    s.slot_type == SlotKind.MORNING || s.slot_type == SlotKind.AFTERNOON)

/-- Semester numbers for the active parity: `[1,3,5,7]` when a
configuration row exists with type `ODD`, else `[2,4,6,8]` (a missing
configuration row falls into the `else` branch of the Python truthiness
test). -/
def semesterNumbersFor (config : Option ConfigRec) : List Nat :=
  match config with
  | some c => if c.active_semester_type == "ODD" then [1, 3, 5, 7]
    else [2, 4, 6, 8]
  | none => [2, 4, 6, 8]

/-- The department's semesters of the active parity, ordered by number. -/
def semestersFor (store : Store) (department_id : Nat) : List SemesterRec :=
  (store.semesters.filter (fun s =>
      s.department_id == department_id &&
        (semesterNumbersFor store.config).contains s.number)).insertionSort
    (fun a b => a.number ≤ b.number)

/-- The message of the 35-teaching-slot guard, with `expected_slots = 7*5`
interpolated. -/
def invalid_slot_count_error (found : Nat) : String :=
  "Invalid time slot configuration. Expected " ++ toString (7 * 5) ++
    " teaching slots, found " ++ toString found ++
    ". Please re-initialize time slots."

/-- A new `TimetableEntry` row created from a gene. -/
def entryOfGene (g : Gene) (tag : String) : EntryRow :=
  { class_section_id := g.class_id, subject_id := g.subject_id,
    faculty_id := g.faculty_id, time_slot_id := g.time_slot_id,
    semester_instance := tag, is_lab_session := g.is_lab,
    assistant_faculty_id := g.assistant_faculty_id }

/-- The delete step of the writer:
`TimetableEntry.objects.filter(class_section__semester_id__in=semester_ids,
semester_instance=semester_instance).delete()`.  `all_classes` is the full
`ClassSection` table, through which the `class_section__semester_id` join
goes. -/
def deleteOldEntries (all_classes : List ClassRec)
    (entries : List EntryRow) (semester_ids : List Nat) (tag : String) :
    List EntryRow :=
  entries.filter (fun e =>
    !(e.semester_instance == tag &&
      all_classes.any (fun c =>
        c.id == e.class_section_id && semester_ids.contains c.semester_id)))

/-- A database fault injected into the writer: the single delete statement
raising, or the `k`-th (0-based) `TimetableEntry.objects.create` call
raising. -/
inductive DbFault
  | atDelete
  | atInsert (k : Nat)
deriving Repr, DecidableEq

/-- The TimetableEntry writes of `generate_department_timetable`: the bulk
delete followed by one `create` per gene of the best chromosome.  The
source wraps none of this in `transaction.atomic`, so under Django's
default autocommit every statement commits on its own; on a fault the
`Except.error` carries the table state already durably committed when the
exception propagates.  A failing delete statement is itself atomic and
removes nothing. -/
def solution_writer (all_classes : List ClassRec) (semester_ids : List Nat)
    (tag : String) (genes : List Gene) (entries : List EntryRow)
    (fault : Option DbFault) : Except (List EntryRow) (List EntryRow) :=
  match fault with
  | some DbFault.atDelete => Except.error entries
  | _ =>
    let afterDelete := deleteOldEntries all_classes entries semester_ids tag
    let rows := genes.map (fun g => entryOfGene g tag)
    match fault with
    | some (DbFault.atInsert k) =>
      if k < genes.length then Except.error (afterDelete ++ rows.take k)
      else Except.ok (afterDelete ++ rows)
    | _ => Except.ok (afterDelete ++ rows)

/-- `FacultySubjectAssignment.objects.get_or_create` keyed on
(faculty, subject, semester_instance, class_section). -/
def get_or_create_assignment (rows : List AssignRow) (fid sid : Nat)
    (tag : String) (cid : Nat) (is_main : Bool) : List AssignRow :=
  if rows.any (fun a =>
      a.faculty_id == fid && a.subject_id == sid &&
        a.semester_instance == tag && a.class_section_id == some cid) then
    rows
  else
    rows ++ [{ faculty_id := fid, subject_id := sid,
               semester_instance := tag, class_section_id := some cid,
               is_main := is_main }]

/-- The FacultySubjectAssignment upserts of the writer loop; the
`if gene.assistant_faculty_id:` guard is Python truthiness. -/
def writeAssignments (genes : List Gene) (tag : String)
    (rows : List AssignRow) : List AssignRow :=
  genes.foldl (fun acc g =>
    let acc1 := get_or_create_assignment acc g.faculty_id g.subject_id tag
      g.class_id true
    match g.assistant_faculty_id with
    | some af =>
      if af == 0 then acc1
      else get_or_create_assignment acc1 af g.subject_id tag g.class_id false
    | none => acc1) rows

/-- The scalar fields of the report returned by
`generate_department_timetable`.  The presentation-only echo of the
department row and the nested per-semester `timetables` map (name and
per-class entry counts) are omitted; every field a claim mentions is
kept. -/
structure Report where
  success : Bool
  error : Option String := none
  total_entries : Nat := 0
  final_fitness : ℚ := 0
  generations_run : Nat := 0
deriving Repr, DecidableEq

/-- Failure report (`{'success': False, 'error': msg}`). -/
def failureReport (msg : String) : Report :=
  { success := false, error := some msg }

/-- The faculty rows the loader selects: active and in the department or
unassigned, else (fallback) all active rows. -/
def facultiesFor (store : Store) (department_id : Nat) :
    List StoreFaculty :=
  let primary := store.faculties.filter (fun f =>
    f.is_active &&
      (f.department_id == some department_id || f.department_id == none))
  if primary.isEmpty then store.faculties.filter (fun f => f.is_active)
  else primary

/-- The classes of the selected semesters
(`ClassSection.objects.filter(semester_id__in=semester_ids)`). -/
def classesFor (store : Store) (department_id : Nat) : List ClassRec :=
  store.classes.filter (fun c =>
    ((semestersFor store department_id).map (·.id)).contains c.semester_id)

/-- The subjects of the selected semesters
(`Subject.objects.filter(semester_id__in=semester_ids)`). -/
def subjectsFor (store : Store) (department_id : Nat) : List SubjectRec :=
  store.subjects.filter (fun s =>
    ((semestersFor store department_id).map (·.id)).contains s.semester_id)

/-- The `faculty_preferences` map built by the loader: comma-split,
whitespace-trimmed, only for rows whose preference string is truthy. -/
def loadPreferences (faculties : List StoreFaculty) :
    List (Nat × List String) :=
  faculties.foldl (fun acc f =>
    if f.preferences == "" then acc
    else acc ++ [(f.id, (f.preferences.splitOn ",").map (·.trim))]) []

/-- The `faculty_history` rotation map: subject codes of assignment rows of
other term instances, grouped by faculty.  The queryset's default ordering
only permutes the per-faculty code lists, which the engine uses solely
through membership tests, so the store order is kept. -/
def loadHistory (store : Store) (semester_instance : String) :
    List (Nat × List String) :=
  (store.assignments.filter (fun a =>
      a.semester_instance != semester_instance)).foldl
    (fun acc a =>
      let code :=
        match store.subjects.find? (fun s => s.id == a.subject_id) with
        | some s => s.code
        | none => ""
      aupdate acc a.faculty_id [] (fun l => l ++ [code])) []

/-- `generate_department_timetable`.  The result is the report together
with the final TimetableEntry and FacultySubjectAssignment tables; `none`
models an uncaught exception (missing department row, attribute access on
a missing configuration, or a raising engine call). -/
def generate_department_timetable (store : Store) (department_id : Nat)
    (semester_instance : String) (r : RNG) :
    Option (Report × List EntryRow × List AssignRow) :=
  match store.departments.find? (fun d => d.id == department_id) with
  | none => none
  | some department =>
    let config := store.config
    let semesters := semestersFor store department_id
    if semesters.isEmpty then
      match config with
      | none => none
      | some c =>
        some (failureReport ("No " ++ c.active_semester_type ++
          " semesters found for " ++ department.code),
          store.entries, store.assignments)
    else
      let semester_ids := semesters.map (·.id)
      let classes := classesFor store department_id
      if classes.isEmpty then
        match config with
        | none => none
        | some c =>
          some (failureReport ("No classes found for " ++ department.code ++
            " in " ++ c.active_semester_type ++ " semesters"),
            store.entries, store.assignments)
      else
        let subjects := subjectsFor store department_id
        if subjects.isEmpty then
          some (failureReport ("No subjects found for " ++ department.code),
            store.entries, store.assignments)
        else
          let faculties := facultiesFor store department_id
          let ga_faculties := faculties.map (fun f =>
            { id := f.id, name := f.name, designation := f.designation,
              max_hours := workloadLimitFor f.designation : FacultyRec })
          let time_slots := (teachingSlots store).map (fun s =>
            { id := s.id, day := s.day, period := s.period : TimeSlotRec })
          if time_slots.isEmpty then
            some (failureReport
              "No time slots configured. Please initialize time slots first.",
              store.entries, store.assignments)
          else if time_slots.length != 7 * 5 then
            some (failureReport (invalid_slot_count_error time_slots.length),
              store.entries, store.assignments)
          else
            let problem : Problem :=
              { classes := classes, subjects := subjects,
                faculties := ga_faculties, time_slots := time_slots,
                faculty_preferences := loadPreferences faculties,
                faculty_history := loadHistory store semester_instance }
            match evolve problem {} r with
            | none => none
            | some (best_solution, fitness_history) =>
              match solution_writer store.classes semester_ids
                  semester_instance best_solution.genes store.entries
                  none with
              | Except.error _ => none
              | Except.ok entries' =>
                let assignments' := writeAssignments best_solution.genes
                  semester_instance store.assignments
                some ({ success := true,
                        total_entries := best_solution.genes.length,
                        final_fitness := best_solution.fitness,
                        generations_run := fitness_history.length },
                  entries', assignments')

/-- Every gene's time slot belongs to the problem's loaded teaching
slots. -/
def slotsOkB (p : Problem) (c : Chromosome) : Bool :=
  c.genes.all (fun g => (p.time_slots.map (·.id)).contains g.time_slot_id)

/-- The gene fields mutation may never touch agree between two genes. -/
def sameStatic (g g' : Gene) : Bool :=
  g.class_id == g'.class_id && g.subject_id == g'.subject_id &&
    g.is_lab == g'.is_lab && g.assistant_faculty_id == g'.assistant_faculty_id

/-- Positionwise `sameStatic` between two gene lists. -/
def zipAllStatic (l l' : List Gene) : Bool :=
  (l.zip l').all (fun gg => sameStatic gg.1 gg.2)

/-- The chromosome `c` dominates every member of `l` by fitness. -/
def maxFitnessOfB (c : Chromosome) (l : List Chromosome) : Bool :=
  l.all (fun x => x.fitness ≤ c.fitness)

/-- Adjacent elements are non-decreasing. -/
def chainLeB : List ℚ → Bool
  | [] => true
  | [_] => true
  | a :: b :: rest => a ≤ b && chainLeB (b :: rest)

/-- The value of the `best_ever` variable of `evolve` after each
generation: the running maximum of the starting best fitness and the
per-generation current bests recorded in the history. -/
def allTimeBestSeries (init : ℚ) : List ℚ → List ℚ
  | [] => []
  | f :: rest => max init f :: allTimeBestSeries (max init f) rest

/-- A fixed oracle stream for concrete evaluations. -/
def rng0 : RNG := fun _ => 0

def dayOfIdx : Nat → Day
  | 0 => Day.MON
  | 1 => Day.TUE
  | 2 => Day.WED
  | 3 => Day.THU
  | _ => Day.FRI

/-- The 35 teaching slots of a fully initialised week, as the GA sees
them. -/
def fullTeachingSlots : List TimeSlotRec :=
  (List.range 35).map (fun i => ⟨i + 1, dayOfIdx (i / 7), i % 7 + 1⟩)

/-- The 40 stored slots of a fully initialised week: 35 teaching plus 5
lunch rows. -/
def fullStoreSlots : List StoreSlot :=
  (List.range 35).map (fun i =>
    ⟨i + 1, dayOfIdx (i / 7), i % 7 + 1,
      if i % 7 + 1 ≤ 4 then SlotKind.MORNING else SlotKind.AFTERNOON⟩) ++
  (List.range 5).map (fun d => ⟨36 + d, dayOfIdx d, 0, SlotKind.LUNCH⟩)

/-- Lab-placement scenario: one class, one LAB subject `CS302L`, two
eligible faculty (empty preference strings), a full 35-slot week. -/
def c1Store : Store :=
  ⟨[⟨1, "Computer Science", "CS"⟩], some ⟨"ODD", "2024-25"⟩,
   [⟨1, 1, 3⟩], [⟨1, "CSE-S3-A", 1⟩],
   [⟨20, "Lab", "CS302L", SubjectType.LAB, 3, 1⟩],
   [⟨1, "F1", "ASSISTANT_PROFESSOR", "", true, some 1⟩,
    ⟨2, "F2", "ASSISTANT_PROFESSOR", "", true, some 1⟩],
   fullStoreSlots, [], []⟩

/-- The three TimetableEntry rows the lab scenario actually writes: a
single three-period lab session. -/
def c1Entries : List EntryRow :=
  [⟨1, 20, 1, 1, "2024-ODD", true, some 2⟩,
   ⟨1, 20, 1, 2, "2024-ODD", true, some 2⟩,
   ⟨1, 20, 1, 3, "2024-ODD", true, some 2⟩]

def c1Assignments : List AssignRow :=
  [⟨1, 20, "2024-ODD", some 1, true⟩, ⟨2, 20, "2024-ODD", some 1, false⟩]

/-- Writer-rollback scenario: one pre-existing entry for the tag. -/
def c2Classes : List ClassRec := [⟨1, "A", 1⟩]

def c2OldEntry : EntryRow := ⟨1, 10, 1, 1, "2024-ODD", false, none⟩

def c2Gene1 : Gene := ⟨1, 20, 2, 5, false, none⟩

def c2Gene2 : Gene := ⟨1, 20, 2, 6, false, none⟩

/-- Tiny problem whose chromosomes are empty (no subjects): the engine
terminates in the first generation with fitness 0. -/
def tinyProblem : Problem :=
  ⟨[⟨1, "A", 1⟩], [], [⟨1, "F", "ASSISTANT_PROFESSOR", 23⟩],
   [⟨1, Day.MON, 1⟩], [], []⟩

def tinyParams : GAParams := ⟨2, 3, 4 / 5, 1 / 10, 1, 2⟩

/-- Faculty-clash problem: one faculty whose preference list contains the
only subject's code, so every gene earns the `+100` preference bonus. -/
def c4Problem : Problem :=
  ⟨[], [⟨50, "Subject", "CS1", SubjectType.THEORY, 3, 1⟩],
   [⟨1, "F", "ASSISTANT_PROFESSOR", 23⟩], [],
   [(1, ["CS1"])], []⟩

/-- Eleven genes of the same faculty: genes 0 and 1 share time slot 1 (one
faculty clash), the rest sit on distinct slots of distinct classes. -/
def c4Chromosome : Chromosome :=
  ⟨(⟨1, 50, 1, 1, false, none⟩ : Gene) :: (⟨2, 50, 1, 1, false, none⟩ : Gene) ::
    (List.range 9).map (fun k => (⟨3 + k, 50, 1, 2 + k, false, none⟩ : Gene)),
   0⟩

/-- The clash problem with no preferences loaded. -/
def c4NoPrefProblem : Problem :=
  ⟨[], [⟨50, "Subject", "CS1", SubjectType.THEORY, 3, 1⟩],
   [⟨1, "F", "ASSISTANT_PROFESSOR", 23⟩], [], [], []⟩

def c4WitnessChromosome : Chromosome :=
  ⟨[⟨1, 50, 1, 5, false, none⟩, ⟨2, 50, 1, 5, false, none⟩], 0⟩

/-- No-faculty scenario: semesters, one class, one subject and the full 35
teaching slots are present, but not a single active faculty row. -/
def c5Store : Store :=
  ⟨[⟨1, "Computer Science", "CS"⟩], some ⟨"ODD", "2024-25"⟩,
   [⟨1, 1, 3⟩], [⟨1, "CSE-S3-A", 1⟩],
   [⟨10, "Programming", "CS301", SubjectType.THEORY, 3, 1⟩],
   [], fullStoreSlots, [], []⟩

/-- Config-guard scenario: a valid store except that teaching slot 35 was
deleted, leaving 34, with one pre-existing entry for the tag. -/
def c6Store : Store :=
  ⟨[⟨1, "Computer Science", "CS"⟩], some ⟨"ODD", "2024-25"⟩,
   [⟨1, 1, 3⟩], [⟨1, "CSE-S3-A", 1⟩],
   [⟨10, "Programming", "CS301", SubjectType.THEORY, 3, 1⟩],
   [⟨1, "F1", "ASSISTANT_PROFESSOR", "", true, some 1⟩],
   fullStoreSlots.filter (fun s => s.id != 35),
   [⟨1, 10, 1, 1, "2024-ODD", false, none⟩], []⟩

/-- Zero-teaching-slot store: only the five lunch rows remain. -/
def c6ZeroStore : Store :=
  ⟨[⟨1, "Computer Science", "CS"⟩], some ⟨"ODD", "2024-25"⟩,
   [⟨1, 1, 3⟩], [⟨1, "CSE-S3-A", 1⟩],
   [⟨10, "Programming", "CS301", SubjectType.THEORY, 3, 1⟩],
   [⟨1, "F1", "ASSISTANT_PROFESSOR", "", true, some 1⟩],
   fullStoreSlots.filter (fun s => s.slot_type == SlotKind.LUNCH), [], []⟩

/-- One-class, one-theory-subject (1 hour), two-slot problem used to
witness the slot invariant on a run that actually places a gene. -/
def t8Problem : Problem :=
  ⟨[⟨1, "A", 1⟩], [⟨10, "T", "CS1", SubjectType.THEORY, 1, 1⟩],
   [⟨1, "F", "ASSISTANT_PROFESSOR", 23⟩],
   [⟨1, Day.MON, 1⟩, ⟨2, Day.MON, 2⟩], [], []⟩

def t8Gene : Gene := ⟨1, 10, 1, 1, false, none⟩

def t8Chromosome : Chromosome := ⟨[t8Gene], 0⟩

def t8Chromosome2 : Chromosome := ⟨[⟨1, 10, 1, 2, false, none⟩], 0⟩

/-- Two empty chromosomes of distinct fitness for selection witnesses. -/
def selPop : List Chromosome := [⟨[], 1⟩, ⟨[], 2⟩]

deriving instance DecidableEq for Except

set_option maxRecDepth 1000000

unseal Rat.add Rat.mul Rat.inv Rat.sub

/-- C7: `calculate_fitness` is deterministic: re-evaluating a chromosome
(including one whose fitness field was already written) returns the
identical score, and each evaluation writes that score into the
chromosome's fitness field, so evaluation is idempotent. -/
theorem c7_fitness_deterministic (p : Problem) (c : Chromosome) :
    calculate_fitness p (applyFitness p c) = calculate_fitness p c ∧
    (applyFitness p c).fitness = calculate_fitness p c ∧
    applyFitness p (applyFitness p c) = applyFitness p c :=
  ⟨rfl, rfl, rfl⟩

/-- C1 (code bug): in the lab-placement scenario (one class, one LAB
subject, two eligible faculty, the full 35 teaching slots) the engine
reports success with fitness `0 ≥ 0` but writes only THREE timetable
entries — a single three-period lab session — not the six entries (two
sessions) the specification requires; the initializer schedules one block
per lab subject and the declared `two_labs_per_week` penalty is never
applied by `calculate_fitness`. -/
theorem c1_lab_scenario :
    generate_department_timetable c1Store 1 "2024-ODD" rng0 =
      some ({ success := true, error := none, total_entries := 3,
              final_fitness := 0, generations_run := 1 },
        c1Entries, c1Assignments) ∧
    c1Entries.length = 3 ∧
    c1Entries.all (fun e => e.is_lab_session) = true := by
  decide

/-- C5 (code bug): with no active faculty at all — while active-parity
semesters, a class, a subject and exactly 35 teaching slots are present —
`generate_department_timetable` does not return a `success=false` report:
it raises (an `IndexError` from `random.choice` on the empty faculty list
inside `_create_random_chromosome`), modelled by the `none` result. -/
theorem c5_no_faculty_raises :
    generate_department_timetable c5Store 1 "2024-ODD" rng0 = none ∧
    (c5Store.faculties.filter (fun f => f.is_active)).isEmpty = true ∧
    (classesFor c5Store 1).isEmpty = false ∧
    (subjectsFor c5Store 1).isEmpty = false ∧
    (teachingSlots c5Store).length = 35 := by
  decide

/-- C2 (counterexample): a database error while inserting the second gene
leaves the store with the pre-existing entry for the tag deleted and the
first new row present: the write is not rolled back. -/
theorem c2_no_rollback_counterexample :
    solution_writer c2Classes [1] "2024-ODD" [c2Gene1, c2Gene2]
        [c2OldEntry] (some (DbFault.atInsert 1)) =
      Except.error [entryOfGene c2Gene1 "2024-ODD"] ∧
    ([entryOfGene c2Gene1 "2024-ODD"].contains c2OldEntry) = false := by
  decide

/-- C2 (amended): the writer runs under autocommit with no enclosing
transaction.  A database error during the delete statement preserves the
prior table (statement atomicity), but an error while inserting the k-th
gene leaves the prior entries for the tag already deleted and exactly the
first k new rows present — the prior timetable is not restored. -/
theorem c2_autocommit_writer (all_classes : List ClassRec)
    (semester_ids : List Nat) (tag : String) (genes : List Gene)
    (entries : List EntryRow) (k : Nat) (hk : k < genes.length) :
    solution_writer all_classes semester_ids tag genes entries
        (some (DbFault.atInsert k)) =
      Except.error (deleteOldEntries all_classes entries semester_ids tag ++
        (genes.map (fun g => entryOfGene g tag)).take k) ∧
    solution_writer all_classes semester_ids tag genes entries
        (some DbFault.atDelete) = Except.error entries := by
  constructor
  · simp only [solution_writer, if_pos hk]
  · rfl

/-- Witness for the amended C2 theorem at the concrete scenario. -/
theorem c2_autocommit_writer_witness :
    (solution_writer c2Classes [1] "2024-ODD" [c2Gene1, c2Gene2]
        [c2OldEntry] (some (DbFault.atInsert 1)) =
      Except.error (deleteOldEntries c2Classes [c2OldEntry] [1]
        "2024-ODD" ++
        ([c2Gene1, c2Gene2].map (fun g =>
          entryOfGene g "2024-ODD")).take 1)) ∧
    (solution_writer c2Classes [1] "2024-ODD" [c2Gene1, c2Gene2]
        [c2OldEntry] (some DbFault.atDelete) =
      Except.error [c2OldEntry]) :=
  c2_autocommit_writer c2Classes [1] "2024-ODD" [c2Gene1, c2Gene2]
    [c2OldEntry] 1 (by decide)

/-- C6 (counterexample): with ZERO teaching slots — all other
configuration valid — the run returns `success=false`, but the error
message is the no-time-slots message, which does not mention 35; the
35-mention part of the claim fails at count 0. -/
theorem c6_zero_slots_counterexample :
    generate_department_timetable c6ZeroStore 1 "2024-ODD" rng0 =
      some (failureReport
        "No time slots configured. Please initialize time slots first.",
        c6ZeroStore.entries, c6ZeroStore.assignments) ∧
    (teachingSlots c6ZeroStore).length ≠ 35 ∧
    ¬ ("35".data <:+:
      "No time slots configured. Please initialize time slots first.".data) := by
  refine ⟨by decide, by decide, by decide⟩

/-- C6 (amended): for a store that passes the earlier guards (department
row found, active-parity semesters, classes and subjects present) and has
at least one teaching slot, a teaching-slot count different from 35 makes
`generate_department_timetable` return `success=false` with the error
message that mentions the expected `35 teaching slots`, and leaves the
TimetableEntry and FacultySubjectAssignment tables unchanged. -/
theorem c6_slot_count_guard (store : Store) (department_id : Nat)
    (semester_instance : String) (r : RNG) (dept : DeptRec)
    (hdept : store.departments.find? (fun d => d.id == department_id) =
      some dept)
    (hsem : (semestersFor store department_id).isEmpty = false)
    (hcls : (classesFor store department_id).isEmpty = false)
    (hsub : (subjectsFor store department_id).isEmpty = false)
    (hne : (teachingSlots store).isEmpty = false)
    (hn : (teachingSlots store).length ≠ 7 * 5) :
    generate_department_timetable store department_id semester_instance r =
      some (failureReport
        (invalid_slot_count_error (teachingSlots store).length),
        store.entries, store.assignments) ∧
    "35 teaching slots".data <:+:
      (invalid_slot_count_error (teachingSlots store).length).data := by
  have isEmpty_map : ∀ (f : StoreSlot → TimeSlotRec) (l : List StoreSlot),
      (l.map f).isEmpty = l.isEmpty := by
    intro f l
    cases l <;> rfl
  constructor
  · simp only [generate_department_timetable, hdept]
    rw [if_neg (by simp [hsem]), if_neg (by simp [hcls]),
      if_neg (by simp [hsub]), if_neg (by simp [isEmpty_map, hne]),
      if_pos (by simp [List.length_map, hn]), List.length_map]
  · have hmsg : invalid_slot_count_error (teachingSlots store).length =
        "Invalid time slot configuration. Expected 35 teaching slots, found "
          ++ (toString (teachingSlots store).length ++
            ". Please re-initialize time slots.") := by
      simp only [invalid_slot_count_error]
      rw [show toString (7 * 5) = "35" from rfl]
      simp [String.append_assoc]
    rw [hmsg]
    have h1 : "35 teaching slots".data <:+:
        ("Invalid time slot configuration. Expected 35 teaching slots, found ").data := by
      decide
    refine h1.trans ?_
    have h2 :
        ("Invalid time slot configuration. Expected 35 teaching slots, found ").data
          <+: ("Invalid time slot configuration. Expected 35 teaching slots, found "
            ++ (toString (teachingSlots store).length ++
              ". Please re-initialize time slots.")).data := by
      rw [String.data_append]
      exact List.prefix_append _ _
    exact h2.isInfix

/-- Witness for the amended C6 theorem: the 34-slot store. -/
theorem c6_slot_count_guard_witness :
    (generate_department_timetable c6Store 1 "2024-ODD" rng0 =
      some (failureReport
        (invalid_slot_count_error (teachingSlots c6Store).length),
        c6Store.entries, c6Store.assignments)) ∧
    "35 teaching slots".data <:+:
      (invalid_slot_count_error (teachingSlots c6Store).length).data :=
  c6_slot_count_guard c6Store 1 "2024-ODD" rng0 ⟨1, "Computer Science", "CS"⟩
    (by decide) (by decide) (by decide) (by decide) (by decide) (by decide)

/-- Copying a chromosome is the identity in the value-semantics model. -/
theorem copy_eq (c : Chromosome) : c.copy = c := rfl

/-- The running-max series is adjacentwise non-decreasing. -/
theorem chainLeB_allTimeBestSeries (init : ℚ) (hist : List ℚ) :
    chainLeB (allTimeBestSeries init hist) = true := by
  induction hist generalizing init with
  | nil => rfl
  | cons f rest ih =>
    cases rest with
    | nil => rfl
    | cons g rest' =>
      have hstep : max init f ≤ max (max init f) g := le_max_left _ _
      simpa [allTimeBestSeries, chainLeB, hstep] using ih (max init f)

/-- Invariant of the generation loop: the all-time best only improves, and
every fitness value appended to the history is dominated by the returned
best. -/
theorem evolveLoop_spec (p : Problem) (params : GAParams) :
    ∀ (gens : Nat) (pop : List Chromosome) (best : Chromosome)
      (hist : List ℚ) (r : RNG) (b : Chromosome) (h : List ℚ),
      evolveLoop p params gens pop best hist r = some (b, h) →
      best.fitness ≤ b.fitness ∧
      ∃ post : List ℚ, h = hist ++ post ∧ ∀ f ∈ post, f ≤ b.fitness := by
  intro gens
  induction gens with
  | zero =>
    intro pop best hist r b h heq
    simp only [evolveLoop, Option.some.injEq, Prod.mk.injEq] at heq
    obtain ⟨hb, hh⟩ := heq
    subst hb
    subst hh
    exact ⟨le_refl _, [], by simp, by simp⟩
  | succ g ih =>
    intro pop best hist r b h heq
    unfold evolveLoop at heq
    simp only [] at heq
    cases hh : (sortByFitnessDesc pop).head? with
    | none => rw [hh] at heq; exact absurd heq (by simp)
    | some cb =>
      rw [hh] at heq
      simp only at heq
      set best' := if best.fitness < cb.fitness then cb.copy else best
        with hbest'
      have hbestle : best.fitness ≤ best'.fitness := by
        rw [hbest']
        by_cases hlt : best.fitness < cb.fitness
        · rw [if_pos hlt, copy_eq]
          exact le_of_lt hlt
        · rw [if_neg hlt]
      have hcble : cb.fitness ≤ best'.fitness := by
        rw [hbest']
        by_cases hlt : best.fitness < cb.fitness
        · rw [if_pos hlt, copy_eq]
        · rw [if_neg hlt]
          exact le_of_not_lt hlt
      by_cases h0 : (0 : ℚ) ≤ cb.fitness
      · rw [if_pos h0] at heq
        simp only [Option.some.injEq, Prod.mk.injEq] at heq
        obtain ⟨hb, hhist⟩ := heq
        subst hb
        subst hhist
        exact ⟨hbestle, [cb.fitness], by simp,
          by simpa using hcble⟩
      · rw [if_neg h0] at heq
        by_cases hel : (sortByFitnessDesc pop).length < params.elite_count
        · rw [if_pos hel] at heq
          exact absurd heq (by simp)
        · rw [if_neg hel] at heq
          cases hfill : fillPopulation p params (sortByFitnessDesc pop)
              params.population_size
              ((List.take params.elite_count
                (sortByFitnessDesc pop)).map Chromosome.copy) r with
          | none => rw [hfill] at heq; exact absurd heq (by simp)
          | some npr =>
            rw [hfill] at heq
            obtain ⟨hble, post', hpost', hall'⟩ :=
              ih npr.1 best' (hist ++ [cb.fitness]) npr.2 b h heq
            refine ⟨le_trans hbestle hble, cb.fitness :: post', ?_, ?_⟩
            · simpa using hpost'
            · intro f hf
              cases hf with
              | head => exact le_trans hcble hble
              | tail _ hf' => exact hall' f hf'

/-- C3: within one call to `evolve`, every per-generation best recorded in
the returned history is dominated by the fitness of the returned all-time
best chromosome, and the all-time-best series (the running maximum the
`best_ever` variable follows, anchored at the first generation's best) is
non-decreasing across generations. -/
theorem c3_best_monotone (p : Problem) (params : GAParams) (r : RNG)
    (best : Chromosome) (hist : List ℚ)
    (h : evolve p params r = some (best, hist)) :
    hist.all (fun f => f ≤ best.fitness) = true ∧
    chainLeB (allTimeBestSeries (hist.headD 0) hist) = true := by
  refine ⟨?_, chainLeB_allTimeBestSeries _ _⟩
  unfold evolve at h
  cases hip : init_population p params.population_size r with
  | none => rw [hip] at h; exact absurd h (by simp)
  | some ipr =>
    rw [hip] at h
    simp only at h
    cases hmb : maxByFitness (ipr.1.map (applyFitness p)) with
    | none => rw [hmb] at h; exact absurd h (by simp)
    | some best0 =>
      rw [hmb] at h
      obtain ⟨-, post, hpost, hall⟩ :=
        evolveLoop_spec p params params.generations
          (ipr.1.map (applyFitness p)) best0 [] ipr.2 best hist h
      simp only [List.nil_append] at hpost
      subst hpost
      simp only [List.all_eq_true, decide_eq_true_eq]
      exact hall

/-- Witness for C3 at the tiny problem (one empty-gene class): the history
is `[0]` and the returned best has fitness `0`. -/
theorem c3_best_monotone_witness :
    (([0] : List ℚ).all
      (fun f => f ≤ (Chromosome.mk [] 0).fitness) = true) ∧
    chainLeB (allTimeBestSeries (([0] : List ℚ).headD 0) [0]) = true :=
  c3_best_monotone tinyProblem tinyParams rng0 ⟨[], 0⟩ [0] (by decide)

/-- An element drawn by `randChoice` belongs to the list. -/
theorem randChoice_mem {α : Type} {l : List α} {r : RNG} {a : α} {r' : RNG}
    (h : randChoice l r = some (a, r')) : a ∈ l := by
  unfold randChoice at h
  cases hg : l.get? (r 0 % l.length) with
  | none => rw [hg] at h; exact absurd h (by simp)
  | some b =>
    rw [hg] at h
    simp only [Option.some.injEq, Prod.mk.injEq] at h
    obtain ⟨hb, -⟩ := h
    subst hb
    exact List.get?_mem hg

/-- A sample is a subset of the population of exactly the requested
size. -/
theorem randSample_spec {α : Type} :
    ∀ (k : Nat) (l : List α) (r : RNG) (s : List α) (r' : RNG),
      randSample l k r = some (s, r') →
      (∀ x ∈ s, x ∈ l) ∧ s.length = k := by
  intro k
  induction k with
  | zero =>
    intro l r s r' h
    simp only [randSample, Option.some.injEq, Prod.mk.injEq] at h
    obtain ⟨hs, -⟩ := h
    subst hs
    exact ⟨by simp, rfl⟩
  | succ k ih =>
    intro l r s r' h
    unfold randSample at h
    cases hg : l.get? (r 0 % l.length) with
    | none => rw [hg] at h; exact absurd h (by simp)
    | some a =>
      rw [hg] at h
      cases hrec : randSample (l.eraseIdx (r 0 % l.length)) k (rngTail r) with
      | none => rw [hrec] at h; exact absurd h (by simp)
      | some pr =>
        obtain ⟨rest, r2⟩ := pr
        rw [hrec] at h
        simp only [Option.some.injEq, Prod.mk.injEq] at h
        obtain ⟨hs, -⟩ := h
        subst hs
        obtain ⟨hsub, hlen⟩ := ih _ _ rest r2 hrec
        refine ⟨?_, by simp [hlen]⟩
        intro x hx
        cases hx with
        | head => exact List.get?_mem hg
        | tail _ hx' =>
          exact (List.eraseIdx_sublist l (r 0 % l.length)).subset (hsub x hx')

/-- Sampling never raises when the requested size fits the population. -/
theorem randSample_isSome {α : Type} :
    ∀ (k : Nat) (l : List α) (r : RNG), k ≤ l.length →
      (randSample l k r).isSome = true := by
  intro k
  induction k with
  | zero => intro l r _; rfl
  | succ k ih =>
    intro l r hk
    have hpos : 0 < l.length := lt_of_lt_of_le (Nat.succ_pos k) hk
    have hlt : r 0 % l.length < l.length := Nat.mod_lt _ hpos
    have hg : l.get? (r 0 % l.length) =
        some (l.get ⟨r 0 % l.length, hlt⟩) := List.get?_eq_get hlt
    unfold randSample
    rw [hg]
    have hk' : k ≤ (l.eraseIdx (r 0 % l.length)).length := by
      have h1 : (l.eraseIdx (r 0 % l.length)).length = l.length - 1 := by
        simp [List.length_eraseIdx, hlt]
      omega
    have := ih (l.eraseIdx (r 0 % l.length)) (rngTail r) hk'
    cases hrec : randSample (l.eraseIdx (r 0 % l.length)) k (rngTail r) with
    | none => rw [hrec] at this; exact absurd this (by simp)
    | some pr =>
      obtain ⟨rest, r2⟩ := pr
      simp

/-- The fold of Python `max(..., key=fitness)`: the result is the seed or
a list member, dominates the seed, and dominates every member. -/
theorem foldl_pickBest_spec (rest : List Chromosome) :
    ∀ init : Chromosome,
      (rest.foldl (fun best x => if best.fitness < x.fitness then x
        else best) init = init ∨
       rest.foldl (fun best x => if best.fitness < x.fitness then x
        else best) init ∈ rest) ∧
      init.fitness ≤ (rest.foldl (fun best x =>
        if best.fitness < x.fitness then x else best) init).fitness ∧
      ∀ x ∈ rest, x.fitness ≤ (rest.foldl (fun best x =>
        if best.fitness < x.fitness then x else best) init).fitness := by
  induction rest with
  | nil => intro init; simp
  | cons a t ih =>
    intro init
    obtain ⟨hmem, hinit, hall⟩ := ih (if init.fitness < a.fitness then a
      else init)
    simp only [List.foldl_cons]
    refine ⟨?_, ?_, ?_⟩
    · cases hmem with
      | inl he =>
        rw [he]
        by_cases hlt : init.fitness < a.fitness
        · rw [if_pos hlt]; exact Or.inr (List.mem_cons_self a t)
        · rw [if_neg hlt]; exact Or.inl rfl
      | inr hm => exact Or.inr (List.mem_cons_of_mem a hm)
    · refine le_trans ?_ hinit
      by_cases hlt : init.fitness < a.fitness
      · rw [if_pos hlt]; exact le_of_lt hlt
      · rw [if_neg hlt]
    · intro x hx
      cases hx with
      | head =>
        refine le_trans ?_ hinit
        by_cases hlt : init.fitness < a.fitness
        · rw [if_pos hlt]
        · rw [if_neg hlt]; exact le_of_not_lt hlt
      | tail _ hx' => exact hall x hx'

/-- The Python `max(l, key=fitness)` result is a member dominating every
member. -/
theorem maxByFitness_spec (l : List Chromosome) (c : Chromosome)
    (h : maxByFitness l = some c) :
    c ∈ l ∧ ∀ x ∈ l, x.fitness ≤ c.fitness := by
  cases l with
  | nil => exact absurd h (by simp [maxByFitness])
  | cons a t =>
    simp only [maxByFitness, Option.some.injEq] at h
    obtain ⟨hmem, hinit, hall⟩ := foldl_pickBest_spec t a
    constructor
    · rw [← h]
      cases hmem with
      | inl he => rw [he]; exact List.mem_cons_self a t
      | inr hm => exact List.mem_cons_of_mem a hm
    · intro x hx
      rw [← h]
      cases hx with
      | head => exact hinit
      | tail _ hx' => exact hall x hx'

/-- C10: on a non-empty population (and a positive tournament size, as
configured), `tournament_selection` is total — when the population holds
fewer than `tournament_size` chromosomes it samples the entire population
rather than failing — and the returned chromosome is a member of the
population of maximal fitness within the drawn sample. -/
theorem c10_tournament_total (params : GAParams) (pop : List Chromosome)
    (r : RNG) (c : Chromosome) (r' : RNG) (sample : List Chromosome)
    (r1 : RNG) (hne : pop ≠ []) (hts : 0 < params.tournament_size)
    (hs : randSample pop (min params.tournament_size pop.length) r =
      some (sample, r1))
    (ht : tournament_selection params pop r = some (c, r')) :
    (tournament_selection params pop r).isSome = true ∧
    c ∈ pop ∧ maxFitnessOfB c sample = true ∧
    (pop.length < params.tournament_size → sample.length = pop.length) := by
  obtain ⟨hsub, hlen⟩ := randSample_spec _ pop r sample r1 hs
  have hpos : 0 < pop.length := List.length_pos.mpr hne
  have hsne : sample ≠ [] := by
    have : 0 < sample.length := by
      rw [hlen]
      exact lt_min hts hpos
    exact List.ne_nil_of_length_pos this
  have htour : tournament_selection params pop r =
      match maxByFitness sample with
      | none => none
      | some m => some (m, r1) := by
    unfold tournament_selection
    rw [hs]
  cases hmb : maxByFitness sample with
  | none =>
    cases sample with
    | nil => exact absurd rfl hsne
    | cons a t => exact absurd hmb (by simp [maxByFitness])
  | some m =>
    rw [hmb] at htour
    rw [htour] at ht
    simp only [Option.some.injEq, Prod.mk.injEq] at ht
    obtain ⟨hc, -⟩ := ht
    subst hc
    obtain ⟨hmem, hdom⟩ := maxByFitness_spec sample m hmb
    refine ⟨by rw [htour]; rfl, hsub m hmem, ?_, ?_⟩
    · simp only [maxFitnessOfB, List.all_eq_true, decide_eq_true_eq]
      exact hdom
    · intro hlt
      rw [hlen]
      exact min_eq_right (le_of_lt hlt)

/-- Witness for C10: a two-chromosome population with tournament size 5
samples both members and returns the fitter one. -/
theorem c10_tournament_total_witness :
    ((tournament_selection { } selPop rng0).isSome = true) ∧
    (⟨[], 2⟩ : Chromosome) ∈ selPop ∧
    maxFitnessOfB ⟨[], 2⟩ selPop = true ∧
    (selPop.length < ({ } : GAParams).tournament_size →
      selPop.length = selPop.length) :=
  c10_tournament_total { } selPop rng0 ⟨[], 2⟩ (rngTail (rngTail rng0))
    selPop (rngTail (rngTail rng0)) (by decide) (by decide) rfl rfl

/-- `sameStatic` unpacked into field equalities. -/
theorem sameStatic_iff {g g' : Gene} : sameStatic g g' = true ↔
    g.class_id = g'.class_id ∧ g.subject_id = g'.subject_id ∧
    g.is_lab = g'.is_lab ∧
    g.assistant_faculty_id = g'.assistant_faculty_id := by
  simp [sameStatic, and_assoc]

theorem sameStatic_refl (g : Gene) : sameStatic g g = true := by
  simp [sameStatic_iff]

theorem sameStatic_trans {g1 g2 g3 : Gene}
    (h1 : sameStatic g1 g2 = true) (h2 : sameStatic g2 g3 = true) :
    sameStatic g1 g3 = true := by
  rw [sameStatic_iff] at h1 h2 ⊢
  obtain ⟨a1, b1, c1, d1⟩ := h1
  obtain ⟨a2, b2, c2, d2⟩ := h2
  exact ⟨a1.trans a2, b1.trans b2, c1.trans c2, d1.trans d2⟩

theorem zipAllStatic_refl (l : List Gene) : zipAllStatic l l = true := by
  induction l with
  | nil => rfl
  | cons a t ih =>
    simp only [zipAllStatic, List.zip_cons_cons, List.all_cons,
      Bool.and_eq_true, sameStatic_refl, true_and]
    exact ih

/-- Overwriting one position with a statically-equal gene keeps the two
lists positionwise statically equal. -/
theorem zipAllStatic_set : ∀ (l : List Gene) (i : Nat) (a : Gene),
    (∀ gi, l.get? i = some gi → sameStatic gi a = true) →
    zipAllStatic l (l.set i a) = true
  | [], _, _, _ => rfl
  | x :: t, 0, a, h => by
    simp only [List.set_cons_zero, zipAllStatic, List.zip_cons_cons,
      List.all_cons, Bool.and_eq_true]
    exact ⟨h x rfl, zipAllStatic_refl t⟩
  | x :: t, i + 1, a, h => by
    simp only [List.set_cons_succ, zipAllStatic, List.zip_cons_cons,
      List.all_cons, Bool.and_eq_true, sameStatic_refl, true_and]
    exact zipAllStatic_set t i a h

theorem zipAllStatic_trans : ∀ (l m n : List Gene),
    l.length = m.length →
    zipAllStatic l m = true → zipAllStatic m n = true →
    zipAllStatic l n = true
  | [], _, _, _, _, _ => rfl
  | a :: l, [], n, hlen, _, _ => by simp at hlen
  | a :: l, b :: m, [], _, _, _ => rfl
  | a :: l, b :: m, c :: n, hlen, h1, h2 => by
    simp only [zipAllStatic, List.zip_cons_cons, List.all_cons,
      Bool.and_eq_true] at h1 h2 ⊢
    exact ⟨sameStatic_trans h1.1 h2.1,
      zipAllStatic_trans l m n (by simpa using hlen) h1.2 h2.2⟩

/-- The position reported by `randChoiceIdx` holds the reported element. -/
theorem randChoiceIdx_get {α : Type} {l : List α} {r : RNG} {i : Nat}
    {a : α} {r' : RNG} (h : randChoiceIdx l r = some ((i, a), r')) :
    l.get? i = some a := by
  unfold randChoiceIdx at h
  cases hg : l.get? (r 0 % l.length) with
  | none => rw [hg] at h; exact absurd h (by simp)
  | some b =>
    rw [hg] at h
    simp only [Option.some.injEq, Prod.mk.injEq] at h
    obtain ⟨⟨hi, hb⟩, -⟩ := h
    subst hi
    subst hb
    exact hg

/-- A pair drawn from a filtered enumeration points at its element. -/
theorem choice_enum_filter_get {l : List Gene} {q : Nat × Gene → Bool}
    {r : RNG} {j : Nat} {b : Gene} {r' : RNG}
    (h : randChoice (l.enum.filter q) r = some ((j, b), r')) :
    l.get? j = some b ∧ q (j, b) = true := by
  have hmem := randChoice_mem h
  have hq := List.of_mem_filter hmem
  have henum := List.mem_of_mem_filter hmem
  rw [List.mem_enum_iff_get?] at henum
  exact ⟨henum, hq⟩

/-- A gene whose time slot was replaced stays statically equal. -/
theorem sameStatic_setSlot (g : Gene) (t : Nat) :
    sameStatic g { g with time_slot_id := t } = true := by
  simp [sameStatic_iff]

/-- A gene whose faculty was replaced stays statically equal. -/
theorem sameStatic_setFaculty (g : Gene) (f : Nat) :
    sameStatic g { g with faculty_id := f } = true := by
  simp [sameStatic_iff]

/-- The double-set swap of `mutate` preserves length and the static
fields, provided each overwritten position receives a statically-equal
gene and the two positions differ. -/
theorem zipAllStatic_swap (genes : List Gene) (i j : Nat)
    (gene1 gene2 a b : Gene) (hget1 : genes.get? i = some gene1)
    (hget2 : genes.get? j = some gene2) (hij : i ≠ j)
    (h1 : sameStatic gene1 a = true) (h2 : sameStatic gene2 b = true) :
    ((genes.set i a).set j b).length = genes.length ∧
    zipAllStatic genes ((genes.set i a).set j b) = true := by
  refine ⟨by simp, ?_⟩
  refine zipAllStatic_trans _ (genes.set i a) _ (by simp) ?_ ?_
  · refine zipAllStatic_set _ i _ (fun gi hgi => ?_)
    rw [hget1] at hgi
    injection hgi with h
    subst h
    exact h1
  · refine zipAllStatic_set _ j _ (fun gj hgj => ?_)
    rw [List.get?_set_ne _ _ hij] at hgj
    rw [hget2] at hgj
    injection hgj with h
    subst h
    exact h2

/-- C9: `mutate` returns a chromosome with exactly as many genes as its
input, and positionwise the result agrees with the input on `class_id`,
`subject_id`, `is_lab` and `assistant_faculty_id`: a mutation can only
alter the `time_slot_id` and `faculty_id` fields. -/
theorem c9_mutate_preserves (p : Problem) (params : GAParams)
    (c : Chromosome) (r : RNG) :
    (mutate p params c r).1.genes.length = c.genes.length ∧
    zipAllStatic c.genes (mutate p params c r).1.genes = true := by
  have key : ∀ out : Chromosome × RNG, mutate p params c r = out →
      out.1.genes.length = c.genes.length ∧
      zipAllStatic c.genes out.1.genes = true := by
    intro out hout
    unfold mutate at hout
    simp only [copy_eq] at hout
    split at hout
    · subst hout
      exact ⟨rfl, zipAllStatic_refl _⟩
    · split at hout
      · subst hout
        exact ⟨rfl, zipAllStatic_refl _⟩
      · split at hout
        · -- swap_slot
          split at hout
          · subst hout
            exact ⟨rfl, zipAllStatic_refl _⟩
          · next i gene1 r3 heq1 =>
            split at hout
            · subst hout
              exact ⟨rfl, zipAllStatic_refl _⟩
            · next j gene2 r4 heq2 =>
              subst hout
              have hget1 : c.genes.get? i = some gene1 :=
                randChoiceIdx_get heq1
              obtain ⟨hget2, hq⟩ := choice_enum_filter_get heq2
              simp only [Bool.and_eq_true, bne_iff_ne] at hq
              have hne : gene2 ≠ gene1 := hq.1.2
              have hij : i ≠ j := by
                intro hij
                subst hij
                rw [hget1] at hget2
                injection hget2 with h
                exact hne h.symm
              exact zipAllStatic_swap c.genes i j gene1 gene2 _ _
                hget1 hget2 hij (sameStatic_setSlot gene1 _)
                (sameStatic_setSlot gene2 _)
        · split at hout
          · -- change_faculty
            split at hout
            · subst hout
              exact ⟨rfl, zipAllStatic_refl _⟩
            · next i gene r3 heq1 =>
              split at hout
              · subst hout
                exact ⟨rfl, zipAllStatic_refl _⟩
              · split at hout
                · subst hout
                  exact ⟨rfl, zipAllStatic_refl _⟩
                · next fid r4 heq2 =>
                  subst hout
                  have hget1 : c.genes.get? i = some gene :=
                    randChoiceIdx_get heq1
                  refine ⟨by simp, ?_⟩
                  refine zipAllStatic_set _ i _ (fun gi hgi => ?_)
                  rw [hget1] at hgi
                  injection hgi with h
                  subst h
                  exact sameStatic_setFaculty gene _
          · -- swap_subjects
            split at hout
            · subst hout
              exact ⟨rfl, zipAllStatic_refl _⟩
            · next i gene1 r3 heq1 =>
              split at hout
              · subst hout
                exact ⟨rfl, zipAllStatic_refl _⟩
              · next j gene2 r4 heq2 =>
                subst hout
                have hget1 : c.genes.get? i = some gene1 :=
                  randChoiceIdx_get heq1
                obtain ⟨hget2, hq⟩ := choice_enum_filter_get heq2
                simp only [Bool.and_eq_true, bne_iff_ne] at hq
                have hne : gene2.class_id ≠ gene1.class_id := hq.2
                have hij : i ≠ j := by
                  intro hij
                  subst hij
                  rw [hget1] at hget2
                  injection hget2 with h
                  exact hne (by rw [h])
                exact zipAllStatic_swap c.genes i j gene1 gene2 _ _
                  hget1 hget2 hij (sameStatic_setFaculty gene1 _)
                  (sameStatic_setFaculty gene2 _)
  exact key _ rfl

/-- A slot set absorbs the inserted value. -/
theorem mem_setInsert (s : List Nat) (v : Nat) :
    v ∈ (if s.contains v then s else s ++ [v]) := by
  split_ifs with h
  · simpa using h
  · simp

/-- A slot set keeps its old members under insertion. -/
theorem mem_setInsert_mono (s : List Nat) (v w : Nat) (h : w ∈ s) :
    w ∈ (if s.contains v then s else s ++ [v]) := by
  split_ifs
  · exact h
  · simp [h]

theorem alookup_aupdate_self {α : Type} (m : List (Nat × α)) (k : Nat)
    (d : α) (f : α → α) :
    alookup (aupdate m k d f) k d = f (alookup m k d) := by
  induction m with
  | nil => simp [aupdate, alookup]
  | cons kv rest ih =>
    by_cases hk : kv.1 == k
    · simp [aupdate, alookup, hk]
    · simp only [aupdate, hk, Bool.false_eq_true, if_false, alookup]
      exact ih

theorem alookup_aupdate_ne {α : Type} (m : List (Nat × α)) (k k' : Nat)
    (hk : k ≠ k') (d : α) (f : α → α) :
    alookup (aupdate m k d f) k' d = alookup m k' d := by
  induction m with
  | nil =>
    simp only [aupdate, alookup]
    rw [if_neg (by simpa using hk)]
  | cons kv rest ih =>
    by_cases hkv : kv.1 == k
    · have hkv' : (kv.1 == k') = false := by
        have h1 : kv.1 = k := by simpa using hkv
        rw [h1]
        exact beq_eq_false_iff_ne.mpr hk
      simp [aupdate, alookup, hkv, hkv']
    · simp only [aupdate, hkv, Bool.false_eq_true, if_false, alookup]
      by_cases hkv' : kv.1 == k'
      · simp [hkv']
      · simp only [hkv', Bool.false_eq_true, if_false]
        exact ih

/-- The schedule after `schedAdd` contains the added slot. -/
theorem mem_schedAdd_self (m : List (Nat × List Nat)) (k v : Nat) :
    v ∈ alookup (schedAdd m k v) k [] := by
  unfold schedAdd
  rw [alookup_aupdate_self]
  exact mem_setInsert _ _

/-- `schedAdd` keeps every previously recorded slot. -/
theorem mem_schedAdd_mono (m : List (Nat × List Nat)) (k v k' w : Nat)
    (h : w ∈ alookup m k' []) : w ∈ alookup (schedAdd m k v) k' [] := by
  unfold schedAdd
  by_cases hk : k = k'
  · subst hk
    rw [alookup_aupdate_self]
    exact mem_setInsert_mono _ _ _ h
  · rw [alookup_aupdate_ne _ _ _ hk]
    exact h

/-- With no preferences loaded, one fitness-loop step never increases the
accumulated score. -/
theorem fitStep_fitness_le (p : Problem)
    (hpref : p.faculty_preferences = []) (st : FitState) (g : Gene) :
    (fitStep p st g).fitness ≤ st.fitness := by
  unfold fitStep
  simp only [prefs_of, hpref, alookup, List.contains_nil,
    Bool.false_eq_true, if_false]
  cases g.assistant_faculty_id with
  | none => simp only []; split_ifs <;> simp <;> linarith
  | some af =>
    by_cases haf : af == 0
    · simp only [haf, if_pos]
      split_ifs <;> simp <;> linarith
    · simp only [haf, Bool.false_eq_true, if_false]
      split_ifs <;> simp <;> linarith

/-- After processing a gene, its (main-faculty, slot) pair is recorded. -/
theorem fitStep_mem_schedule (p : Problem) (st : FitState) (g : Gene) :
    g.time_slot_id ∈
      alookup (fitStep p st g).faculty_schedule g.faculty_id [] := by
  unfold fitStep
  cases g.assistant_faculty_id with
  | none => simp only []; exact mem_schedAdd_self _ _ _
  | some af =>
    by_cases haf : af == 0
    · simp only [haf, if_pos]
      exact mem_schedAdd_self _ _ _
    · simp only [haf, Bool.false_eq_true, if_false]
      exact mem_schedAdd_mono _ _ _ _ _ (mem_schedAdd_self _ _ _)

/-- A fitness-loop step never discards recorded schedule entries. -/
theorem fitStep_schedule_mono (p : Problem) (st : FitState) (g : Gene)
    (k w : Nat) (h : w ∈ alookup st.faculty_schedule k []) :
    w ∈ alookup (fitStep p st g).faculty_schedule k [] := by
  unfold fitStep
  cases g.assistant_faculty_id with
  | none => simp only []; exact mem_schedAdd_mono _ _ _ _ _ h
  | some af =>
    by_cases haf : af == 0
    · simp only [haf, if_pos]
      exact mem_schedAdd_mono _ _ _ _ _ h
    · simp only [haf, Bool.false_eq_true, if_false]
      exact mem_schedAdd_mono _ _ _ _ _
        (mem_schedAdd_mono _ _ _ _ _ h)

/-- Processing a gene whose (faculty, slot) pair is already recorded costs
at least the `faculty_clash` weight of −1000. -/
theorem fitStep_clash_le (p : Problem)
    (hpref : p.faculty_preferences = []) (st : FitState) (g : Gene)
    (hmem : g.time_slot_id ∈ alookup st.faculty_schedule g.faculty_id []) :
    (fitStep p st g).fitness ≤ st.fitness - 1000 := by
  unfold fitStep
  have hcont : (alookup st.faculty_schedule g.faculty_id []).contains
      g.time_slot_id = true := by
    simpa using hmem
  simp only [prefs_of, hpref, alookup, List.contains_nil,
    Bool.false_eq_true, if_false, hcont, if_pos]
  cases g.assistant_faculty_id with
  | none => simp only []; split_ifs <;> simp <;> linarith
  | some af =>
    by_cases haf : af == 0
    · simp only [haf, if_pos]
      split_ifs <;> simp <;> linarith
    · simp only [haf, Bool.false_eq_true, if_false]
      split_ifs <;> simp <;> linarith

/-- With no preferences, the whole gene loop never increases the score. -/
theorem foldl_fitStep_le (p : Problem)
    (hpref : p.faculty_preferences = []) :
    ∀ (l : List Gene) (st : FitState),
      (l.foldl (fitStep p) st).fitness ≤ st.fitness := by
  intro l
  induction l with
  | nil => intro st; simp
  | cons a t ih =>
    intro st
    simp only [List.foldl_cons]
    exact le_trans (ih _) (fitStep_fitness_le p hpref st a)

/-- The gene loop preserves recorded schedule entries. -/
theorem foldl_fitStep_schedule_mono (p : Problem) :
    ∀ (l : List Gene) (st : FitState) (k w : Nat),
      w ∈ alookup st.faculty_schedule k [] →
      w ∈ alookup (l.foldl (fitStep p) st).faculty_schedule k [] := by
  intro l
  induction l with
  | nil => intro st k w h; simpa using h
  | cons a t ih =>
    intro st k w h
    simp only [List.foldl_cons]
    exact ih _ _ _ (fitStep_schedule_mono p st a k w h)

/-- If a gene of the remaining list clashes with an already recorded
(faculty, slot) pair, the loop ends at least 1000 below its start. -/
theorem foldl_scheduled_clash (p : Problem)
    (hpref : p.faculty_preferences = []) :
    ∀ (t : List Gene) (st : FitState) (j : Nat) (gj : Gene),
      t.get? j = some gj →
      gj.time_slot_id ∈ alookup st.faculty_schedule gj.faculty_id [] →
      (t.foldl (fitStep p) st).fitness ≤ st.fitness - 1000 := by
  intro t
  induction t with
  | nil => intro st j gj hg; exact absurd hg (by simp)
  | cons b t' ih =>
    intro st j gj hg hmem
    cases j with
    | zero =>
      injection hg with hb
      simp only [List.foldl_cons]
      refine le_trans (foldl_fitStep_le p hpref t' _) ?_
      rw [hb]
      exact fitStep_clash_le p hpref st gj hmem
    | succ j' =>
      simp only [List.foldl_cons]
      refine le_trans (ih (fitStep p st b) j' gj hg
        (fitStep_schedule_mono p st b _ _ hmem)) ?_
      have := fitStep_fitness_le p hpref st b
      linarith

/-- Two genes at positions `i < j` with the same faculty and slot drive
the gene loop at least 1000 below its start. -/
theorem foldl_clash (p : Problem) (hpref : p.faculty_preferences = []) :
    ∀ (l : List Gene) (st : FitState) (i j : Nat) (gi gj : Gene),
      i < j → l.get? i = some gi → l.get? j = some gj →
      gi.faculty_id = gj.faculty_id →
      gi.time_slot_id = gj.time_slot_id →
      (l.foldl (fitStep p) st).fitness ≤ st.fitness - 1000 := by
  intro l
  induction l with
  | nil => intro st i j gi gj _ hg; exact absurd hg (by simp)
  | cons a t ih =>
    intro st i j gi gj hij hgi hgj hfac hslot
    cases i with
    | zero =>
      injection hgi with ha
      obtain ⟨j', hj'⟩ :=
        Nat.exists_eq_succ_of_ne_zero (Nat.pos_iff_ne_zero.mp hij)
      subst hj'
      simp only [List.foldl_cons]
      rw [ha]
      refine le_trans
        (foldl_scheduled_clash p hpref t (fitStep p st gi) j' gj hgj ?_) ?_
      · rw [← hslot, ← hfac]
        exact fitStep_mem_schedule p st gi
      · have := fitStep_fitness_le p hpref st gi
        linarith
    | succ i' =>
      obtain ⟨j', hj'⟩ := Nat.exists_eq_succ_of_ne_zero
        (Nat.not_eq_zero_of_lt hij)
      subst hj'
      simp only [List.foldl_cons]
      refine le_trans (ih (fitStep p st a) i' j' gi gj
        (Nat.lt_of_succ_lt_succ hij) hgi hgj hfac hslot) ?_
      have := fitStep_fitness_le p hpref st a
      linarith

/-- The workload-limit loop only subtracts. -/
theorem workloadPenalty_le (p : Problem) :
    ∀ (fh : List (Nat × Nat)) (fit : ℚ), workloadPenalty p fh fit ≤ fit := by
  intro fh
  induction fh with
  | nil => intro fit; simp [workloadPenalty]
  | cons kv rest ih =>
    intro fit
    unfold workloadPenalty at ih ⊢
    simp only [List.foldl_cons]
    refine le_trans (ih _) ?_
    split_ifs with h
    · have h0 : (0 : ℚ) ≤ (kv.2 : ℚ) - (workload_limit p kv.1 : ℚ) := by
        have : (workload_limit p kv.1 : ℚ) ≤ (kv.2 : ℚ) := by
          exact_mod_cast le_of_lt h
        linarith
      nlinarith
    · exact le_refl fit

/-- The lab-constraint loop for one class only subtracts. -/
theorem labPenaltyForClass_le (p : Problem) (lab_genes : List Gene) :
    ∀ fit : ℚ, labPenaltyForClass p lab_genes fit ≤ fit := by
  unfold labPenaltyForClass
  generalize pyset (lab_genes.map (fun g => g.subject_id)) = sids
  induction sids with
  | nil => intro fit; simp
  | cons s rest ih =>
    intro fit
    simp only [List.foldl_cons]
    refine le_trans (ih _) ?_
    split_ifs <;> linarith

/-- The lab-constraint loop only subtracts. -/
theorem labPenalty_le (p : Problem) :
    ∀ (cl : List (Nat × List Gene)) (fit : ℚ), labPenalty p cl fit ≤ fit := by
  intro cl
  induction cl with
  | nil => intro fit; simp [labPenalty]
  | cons kv rest ih =>
    intro fit
    unfold labPenalty at ih ⊢
    simp only [List.foldl_cons]
    exact le_trans (ih _) (labPenaltyForClass_le p kv.2 fit)

/-- One half-day of the balance fold only subtracts. -/
theorem balanceFold_le (avg : ℚ) :
    ∀ (l : List (Nat × Nat)) (fit : ℚ),
      l.foldl (fun acc kv =>
        let deviation := pyabs ((kv.2 : ℚ) - avg)
        if 5 < deviation then acc + (-30) * (deviation - 5) else acc)
        fit ≤ fit := by
  intro l
  induction l with
  | nil => intro fit; simp
  | cons kv rest ih =>
    intro fit
    simp only [List.foldl_cons]
    refine le_trans (ih _) ?_
    split_ifs with hd
    · nlinarith
    · exact le_refl fit

/-- The workload-balance loop only subtracts. -/
theorem balancePenalty_le (fh : List (Nat × Nat)) (fit : ℚ) :
    balancePenalty fh fit ≤ fit := by
  unfold balancePenalty
  split_ifs with h
  · exact le_refl fit
  · exact balanceFold_le _ fh fit

/-- The rotation loop only subtracts. -/
theorem rotationPenalty_le (p : Problem) :
    ∀ (genes : List Gene) (fit : ℚ), rotationPenalty p genes fit ≤ fit := by
  intro genes
  induction genes with
  | nil => intro fit; simp [rotationPenalty]
  | cons g rest ih =>
    intro fit
    unfold rotationPenalty at ih ⊢
    simp only [List.foldl_cons]
    refine le_trans (ih _) ?_
    split_ifs <;> linarith

/-- Core of the amended C4: with no preferences loaded, a same-faculty
same-slot pair at positions `i < j` forces a strictly negative fitness. -/
theorem clash_fitness_neg (p : Problem) (c : Chromosome)
    (hpref : p.faculty_preferences = []) (i j : Nat) (gi gj : Gene)
    (hij : i < j) (hgi : c.genes.get? i = some gi)
    (hgj : c.genes.get? j = some gj)
    (hfac : gi.faculty_id = gj.faculty_id)
    (hslot : gi.time_slot_id = gj.time_slot_id) :
    calculate_fitness p c < 0 := by
  have hloop := foldl_clash p hpref c.genes initFitState i j gi gj hij
    hgi hgj hfac hslot
  unfold calculate_fitness
  have h1 := workloadPenalty_le p
    (c.genes.foldl (fitStep p) initFitState).faculty_hours
    (c.genes.foldl (fitStep p) initFitState).fitness
  have h2 := labPenalty_le p
    (c.genes.foldl (fitStep p) initFitState).class_labs
    (workloadPenalty p (c.genes.foldl (fitStep p) initFitState).faculty_hours
      (c.genes.foldl (fitStep p) initFitState).fitness)
  have h3 := balancePenalty_le
    (c.genes.foldl (fitStep p) initFitState).faculty_hours
    (labPenalty p (c.genes.foldl (fitStep p) initFitState).class_labs
      (workloadPenalty p
        (c.genes.foldl (fitStep p) initFitState).faculty_hours
        (c.genes.foldl (fitStep p) initFitState).fitness))
  have h4 := rotationPenalty_le p c.genes
    (balancePenalty (c.genes.foldl (fitStep p) initFitState).faculty_hours
      (labPenalty p (c.genes.foldl (fitStep p) initFitState).class_labs
        (workloadPenalty p
          (c.genes.foldl (fitStep p) initFitState).faculty_hours
          (c.genes.foldl (fitStep p) initFitState).fitness)))
  have hinit : initFitState.fitness = 0 := rfl
  rw [hinit] at hloop
  linarith

/-- C4 (counterexample): a chromosome whose first two genes share faculty
1 and time slot 1 — a faculty clash — still scores `+100 > 0`: the eleven
`+100` preference bonuses outweigh the single `−1000` clash penalty, so
fitness is not strictly negative whenever such a pair exists. -/
theorem c4_clash_not_negative_counterexample :
    calculate_fitness c4Problem c4Chromosome = 100 ∧
    c4Chromosome.genes.get? 0 = some ⟨1, 50, 1, 1, false, none⟩ ∧
    c4Chromosome.genes.get? 1 = some ⟨2, 50, 1, 1, false, none⟩ := by
  refine ⟨by decide, by decide, by decide⟩

/-- C4 (amended): two distinct genes with the same faculty and time slot
always incur the −1000 `faculty_clash` penalty, but the `+100` preference
bonuses are the only positive fitness terms and can outweigh it; when the
problem has no faculty preferences loaded, every term is non-positive and
the fitness is strictly negative as claimed. -/
theorem c4_clash_negative_without_bonus (p : Problem) (c : Chromosome)
    (hpref : p.faculty_preferences = []) (i j : Nat) (gi gj : Gene)
    (hij : i ≠ j) (hgi : c.genes.get? i = some gi)
    (hgj : c.genes.get? j = some gj)
    (hfac : gi.faculty_id = gj.faculty_id)
    (hslot : gi.time_slot_id = gj.time_slot_id) :
    calculate_fitness p c < 0 := by
  cases lt_or_gt_of_ne hij with
  | inl hlt =>
    exact clash_fitness_neg p c hpref i j gi gj hlt hgi hgj hfac hslot
  | inr hgt =>
    exact clash_fitness_neg p c hpref j i gj gi hgt hgj hgi hfac.symm
      hslot.symm

/-- Witness for the amended C4: the two-gene clash chromosome without
preferences evaluates strictly negative (concretely to −1000). -/
theorem c4_clash_negative_without_bonus_witness :
    calculate_fitness c4NoPrefProblem c4WitnessChromosome < 0 :=
  c4_clash_negative_without_bonus c4NoPrefProblem c4WitnessChromosome rfl
    0 1 ⟨1, 50, 1, 5, false, none⟩ ⟨2, 50, 1, 5, false, none⟩
    (by decide) (by decide) (by decide) rfl rfl

/-- A shuffle only permutes: every output element was an input element. -/
theorem mem_shuffleGo {α : Type} :
    ∀ (fuel : Nat) (l : List α) (r : RNG) (x : α),
      x ∈ (shuffleGo fuel l r).1 → x ∈ l := by
  intro fuel
  induction fuel with
  | zero => intro l r x hx; simpa [shuffleGo] using hx
  | succ fuel ih =>
    intro l r x hx
    cases l with
    | nil => simpa [shuffleGo] using hx
    | cons a t =>
      unfold shuffleGo at hx
      cases hg : (a :: t).get? (r 0 % (a :: t).length) with
      | none =>
        rw [hg] at hx
        simpa using hx
      | some b =>
        rw [hg] at hx
        simp only [List.mem_cons] at hx
        cases hx with
        | inl hb => exact hb ▸ List.get?_mem hg
        | inr hrec =>
          exact (List.eraseIdx_sublist (a :: t) _).subset (ih _ _ _ hrec)

/-- Values stored by the grouping `aupdate` all satisfy `S` if the old
values and the inserted element do. -/
theorem aupdate_vals {κ β : Type} [BEq κ] (S : β → Prop) :
    ∀ (m : List (κ × List β)) (k : κ) (x : β),
      (∀ kv ∈ m, ∀ y ∈ kv.2, S y) → S x →
      ∀ kv ∈ aupdate m k [] (fun l => l ++ [x]), ∀ y ∈ kv.2, S y := by
  intro m
  induction m with
  | nil =>
    intro k x _ hx kv hkv y hy
    simp only [aupdate, List.mem_singleton] at hkv
    subst hkv
    simp only [List.nil_append, List.mem_singleton] at hy
    subst hy
    exact hx
  | cons kv0 rest ih =>
    intro k x hm hx kv hkv y hy
    by_cases hk : kv0.1 == k
    · simp only [aupdate, hk, if_pos, List.mem_cons] at hkv
      cases hkv with
      | inl he =>
        subst he
        simp only [List.mem_append, List.mem_singleton] at hy
        cases hy with
        | inl hy' => exact hm kv0 (List.mem_cons_self _ _) y hy'
        | inr hy' => exact hy' ▸ hx
      | inr hm' => exact hm kv (List.mem_cons_of_mem _ hm') y hy
    · simp only [aupdate, hk, Bool.false_eq_true, if_false,
        List.mem_cons] at hkv
      cases hkv with
      | inl he =>
        exact hm kv0 (List.mem_cons_self _ _) y (he ▸ hy)
      | inr hm' =>
        exact ih k x (fun kv' hkv' => hm kv' (List.mem_cons_of_mem _ hkv'))
          hx kv hm' y hy

/-- Values of a groupBy fold all come from the folded list (or the seed). -/
theorem foldl_group_vals {κ β : Type} [BEq κ] (S : β → Prop) (key : β → κ) :
    ∀ (l : List β) (acc : List (κ × List β)),
      (∀ kv ∈ acc, ∀ y ∈ kv.2, S y) → (∀ y ∈ l, S y) →
      ∀ kv ∈ l.foldl
        (fun a s => aupdate a (key s) [] (fun t => t ++ [s])) acc,
        ∀ y ∈ kv.2, S y := by
  intro l
  induction l with
  | nil => intro acc hacc _ kv hkv y hy; exact hacc kv hkv y hy
  | cons s t ih =>
    intro acc hacc hl kv hkv y hy
    simp only [List.foldl_cons] at hkv
    exact ih _ (aupdate_vals S acc (key s) s hacc
        (hl s (List.mem_cons_self _ _)))
      (fun y' hy' => hl y' (List.mem_cons_of_mem _ hy')) kv hkv y hy

/-- A value looked up in a grouped map satisfies what all values do. -/
theorem alookup_vals {κ β : Type} [BEq κ] (S : β → Prop) :
    ∀ (m : List (κ × List β)) (k : κ),
      (∀ kv ∈ m, ∀ y ∈ kv.2, S y) →
      ∀ y ∈ alookup m k [], S y := by
  intro m
  induction m with
  | nil => intro k _ y hy; simp [alookup] at hy
  | cons kv0 rest ih =>
    intro k hm y hy
    by_cases hk : kv0.1 == k
    · simp only [alookup, hk, if_pos] at hy
      exact hm kv0 (List.mem_cons_self _ _) y hy
    · simp only [alookup, hk, Bool.false_eq_true, if_false] at hy
      exact ih k (fun kv' hkv' => hm kv' (List.mem_cons_of_mem _ hkv')) y hy

/-- Every slot grouped by `slots_by_day` is a loaded teaching slot. -/
theorem slots_by_day_vals (p : Problem) (a u : List Nat) :
    ∀ kv ∈ slots_by_day p a u, ∀ s ∈ kv.2, s ∈ p.time_slots := by
  unfold slots_by_day
  exact foldl_group_vals (· ∈ p.time_slots) (·.day) _ []
    (by simp) (fun y hy => List.mem_of_mem_filter hy)

/-- Ids returned by the preferred-block search name slots of the day
list. -/
theorem tryPreferredBlock_sub (ds : List TimeSlotRec) (ids : List Nat)
    (h : tryPreferredBlock ds = some ids) :
    ∀ x ∈ ids, ∃ s ∈ ds, s.id = x := by
  unfold tryPreferredBlock at h
  simp only [] at h
  split_ifs at h with h1 h2
  · simp only [Option.some.injEq] at h
    subst h
    intro x hx
    obtain ⟨s, hs, hsx⟩ := List.exists_of_mem_map (List.mem_of_mem_take hx)
    refine ⟨s, ?_, hsx⟩
    have hs1 := List.mem_of_mem_filter hs
    have hs2 := List.mem_of_mem_filter hs1
    exact (List.mem_insertionSort _).mp hs2
  · simp only [Option.some.injEq] at h
    subst h
    intro x hx
    obtain ⟨s, hs, hsx⟩ := List.exists_of_mem_map (List.mem_of_mem_take hx)
    refine ⟨s, ?_, hsx⟩
    have hs1 := List.mem_of_mem_filter hs
    have hs2 := List.mem_of_mem_filter hs1
    exact (List.mem_insertionSort _).mp hs2

/-- Ids returned by the consecutive-triple scan name slots of the list. -/
theorem findConsecutiveTriple_sub :
    ∀ (ds : List TimeSlotRec) (ids : List Nat),
      findConsecutiveTriple ds = some ids →
      ∀ x ∈ ids, ∃ s ∈ ds, s.id = x
  | [], _, h => by simp [findConsecutiveTriple] at h
  | [_], _, h => by simp [findConsecutiveTriple] at h
  | [_, _], _, h => by simp [findConsecutiveTriple] at h
  | a :: b :: c :: rest, ids, h => by
    unfold findConsecutiveTriple at h
    split_ifs at h with hcond
    · simp only [Option.some.injEq] at h
      subst h
      intro x hx
      simp only [List.mem_cons, List.not_mem_nil, or_false] at hx
      rcases hx with hx | hx | hx
      · exact ⟨a, by simp, hx.symm⟩
      · exact ⟨b, by simp, hx.symm⟩
      · exact ⟨c, by simp, hx.symm⟩
    · intro x hx
      obtain ⟨s, hs, hsx⟩ :=
        findConsecutiveTriple_sub (b :: c :: rest) ids h x hx
      exact ⟨s, List.mem_cons_of_mem a hs, hsx⟩

/-- Ids returned by the fallback search name slots of the day list. -/
theorem tryAnyBlock_sub (ds : List TimeSlotRec) (ids : List Nat)
    (h : tryAnyBlock ds = some ids) : ∀ x ∈ ids, ∃ s ∈ ds, s.id = x := by
  unfold tryAnyBlock at h
  split_ifs at h with h1
  intro x hx
  obtain ⟨s, hs, hsx⟩ := findConsecutiveTriple_sub _ ids h x hx
  exact ⟨s, (List.mem_insertionSort _).mp hs, hsx⟩

/-- Every id `_find_lab_slots` returns is the id of a loaded teaching
slot. -/
theorem find_lab_slots_sub (p : Problem) (a u : List Nat) :
    ∀ x ∈ find_lab_slots p a u, x ∈ p.time_slots.map (·.id) := by
  intro x hx
  unfold find_lab_slots at hx
  simp only [] at hx
  cases hfs : (slots_by_day p a u).findSome?
      (fun kv => tryPreferredBlock kv.2) with
  | some ids =>
    rw [hfs] at hx
    obtain ⟨kv, hkv, hids⟩ := List.exists_of_findSome?_eq_some hfs
    obtain ⟨s, hs, hsx⟩ := tryPreferredBlock_sub kv.2 ids hids x hx
    exact hsx ▸ List.mem_map_of_mem _ (slots_by_day_vals p a u kv hkv s hs)
  | none =>
    rw [hfs] at hx
    cases hfs2 : (slots_by_day p a u).findSome?
        (fun kv => tryAnyBlock kv.2) with
    | some ids =>
      rw [hfs2] at hx
      obtain ⟨kv, hkv, hids⟩ := List.exists_of_findSome?_eq_some hfs2
      obtain ⟨s, hs, hsx⟩ := tryAnyBlock_sub kv.2 ids hids x hx
      exact hsx ▸ List.mem_map_of_mem _ (slots_by_day_vals p a u kv hkv s hs)
    | none =>
      rw [hfs2] at hx
      simp at hx

/-- Lab scheduling only adds genes sitting on loaded teaching slots. -/
theorem scheduleLabs_ok (p : Problem) (cid : Nat) :
    ∀ (labs : List Nat) (genes : List Gene) (used : List Nat) (r : RNG)
      (out : List Gene × List Nat × RNG),
      scheduleLabs p cid labs genes used r = some out →
      (∀ g ∈ genes, g.time_slot_id ∈ p.time_slots.map (·.id)) →
      ∀ g ∈ out.1, g.time_slot_id ∈ p.time_slots.map (·.id) := by
  intro labs
  induction labs with
  | nil =>
    intro genes used r out h hok
    simp only [scheduleLabs, Option.some.injEq] at h
    subst h
    exact hok
  | cons lab rest ih =>
    intro genes used r out h hok
    unfold scheduleLabs at h
    simp only [] at h
    split_ifs at h with hempty
    · exact ih genes used r out h hok
    · cases hpick : pickLabFaculty p lab r with
      | none => rw [hpick] at h; exact absurd h (by simp)
      | some val =>
        obtain ⟨⟨main_faculty, assistant_faculty⟩, r'⟩ := val
        rw [hpick] at h
        refine ih _ _ _ out h ?_
        intro g hg
        rw [List.mem_append] at hg
        cases hg with
        | inl hold => exact hok g hold
        | inr hnew =>
          obtain ⟨sid, hsid, hgeq⟩ := List.exists_of_mem_map hnew
          rw [← hgeq]
          exact find_lab_slots_sub p (p.time_slots.map (·.id)) used sid hsid

/-- Theory scheduling only adds genes sitting on loaded teaching slots. -/
theorem scheduleTheory_ok (p : Problem) (cid : Nat) :
    ∀ (subs : List Nat) (genes : List Gene) (used : List Nat) (r : RNG)
      (out : List Gene × List Nat × RNG),
      scheduleTheory p cid subs genes used r = some out →
      (∀ g ∈ genes, g.time_slot_id ∈ p.time_slots.map (·.id)) →
      ∀ g ∈ out.1, g.time_slot_id ∈ p.time_slots.map (·.id) := by
  intro subs
  induction subs with
  | nil =>
    intro genes used r out h hok
    simp only [scheduleTheory, Option.some.injEq] at h
    subst h
    exact hok
  | cons sub rest ih =>
    intro genes used r out h hok
    unfold scheduleTheory at h
    simp only [] at h
    cases hch : (if (get_eligible_faculty_for_subject p sub).isEmpty then
        randChoice (p.faculties.map (·.id)) r
      else randChoice (get_eligible_faculty_for_subject p sub) r) with
    | none => rw [hch] at h; exact absurd h (by simp)
    | some val =>
      obtain ⟨faculty_id, r1⟩ := val
      rw [hch] at h
      refine ih _ _ _ out h ?_
      intro g hg
      rw [List.mem_append] at hg
      cases hg with
      | inl hold => exact hok g hold
      | inr hnew =>
        obtain ⟨sid, hsid, hgeq⟩ := List.exists_of_mem_map hnew
        rw [← hgeq]
        have h1 := List.mem_of_mem_take hsid
        have h2 := mem_shuffleGo _ _ _ _ h1
        exact List.mem_of_mem_filter h2

/-- One class's schedule step preserves the slot invariant. -/
theorem scheduleClass_ok (p : Problem) (genes : List Gene) (c : ClassRec)
    (r : RNG) (out : List Gene × RNG)
    (h : scheduleClass p genes c r = some out)
    (hok : ∀ g ∈ genes, g.time_slot_id ∈ p.time_slots.map (·.id)) :
    ∀ g ∈ out.1, g.time_slot_id ∈ p.time_slots.map (·.id) := by
  unfold scheduleClass at h
  simp only [] at h
  cases hlab : scheduleLabs p c.id
      (List.take 2 ((class_subjects p c.id).filter (fun sid =>
        (subject_info p sid).any
          (fun s => s.subject_type == SubjectType.LAB)))) genes [] r with
  | none => rw [hlab] at h; exact absurd h (by simp)
  | some labOut =>
    obtain ⟨genes1, used_slots, r1⟩ := labOut
    rw [hlab] at h
    simp only [] at h
    cases hth : scheduleTheory p c.id
        ((class_subjects p c.id).filter (fun sid =>
          (subject_info p sid).any
            (fun s => s.subject_type == SubjectType.THEORY))) genes1
        used_slots r1 with
    | none => rw [hth] at h; exact absurd h (by simp)
    | some thOut =>
      obtain ⟨genes2, used2, r2⟩ := thOut
      rw [hth] at h
      simp only [Option.some.injEq] at h
      subst h
      exact scheduleTheory_ok p c.id _ genes1 used_slots r1
        (genes2, used2, r2)
        hth (scheduleLabs_ok p c.id _ genes [] r (genes1, used_slots, r1)
          hlab hok)

/-- The per-class fold preserves the slot invariant. -/
theorem scheduleClasses_ok (p : Problem) :
    ∀ (cls : List ClassRec) (genes : List Gene) (r : RNG)
      (out : List Gene × RNG),
      scheduleClasses p cls genes r = some out →
      (∀ g ∈ genes, g.time_slot_id ∈ p.time_slots.map (·.id)) →
      ∀ g ∈ out.1, g.time_slot_id ∈ p.time_slots.map (·.id) := by
  intro cls
  induction cls with
  | nil =>
    intro genes r out h hok
    simp only [scheduleClasses, Option.some.injEq] at h
    subst h
    exact hok
  | cons c rest ih =>
    intro genes r out h hok
    unfold scheduleClasses at h
    cases hc : scheduleClass p genes c r with
    | none => rw [hc] at h; exact absurd h (by simp)
    | some clsOut =>
      rw [hc] at h
      exact ih clsOut.1 clsOut.2 out h
        (scheduleClass_ok p genes c r clsOut hc hok)

/-- Every gene of a freshly created chromosome sits on a loaded teaching
slot. -/
theorem create_random_chromosome_ok (p : Problem) (r : RNG)
    (c : Chromosome) (r' : RNG)
    (h : create_random_chromosome p r = some (c, r')) :
    ∀ g ∈ c.genes, g.time_slot_id ∈ p.time_slots.map (·.id) := by
  unfold create_random_chromosome at h
  cases hs : scheduleClasses p p.classes [] r with
  | none => rw [hs] at h; exact absurd h (by simp)
  | some out =>
    rw [hs] at h
    simp only [Option.some.injEq, Prod.mk.injEq] at h
    obtain ⟨hc, -⟩ := h
    subst hc
    exact scheduleClasses_ok p p.classes [] r out hs (by simp)

/-- Every chromosome of the initial population satisfies the slot
invariant. -/
theorem init_population_ok (p : Problem) :
    ∀ (n : Nat) (r : RNG) (pop : List Chromosome) (r' : RNG),
      init_population p n r = some (pop, r') →
      ∀ c ∈ pop, ∀ g ∈ c.genes,
        g.time_slot_id ∈ p.time_slots.map (·.id) := by
  intro n
  induction n with
  | zero =>
    intro r pop r' h
    simp only [init_population, Option.some.injEq, Prod.mk.injEq] at h
    obtain ⟨hp, -⟩ := h
    subst hp
    simp
  | succ n ih =>
    intro r pop r' h
    unfold init_population at h
    cases hc : create_random_chromosome p r with
    | none => rw [hc] at h; exact absurd h (by simp)
    | some cr =>
      obtain ⟨c0, r1⟩ := cr
      rw [hc] at h
      simp only [] at h
      cases hrest : init_population p n r1 with
      | none => rw [hrest] at h; exact absurd h (by simp)
      | some pr =>
        obtain ⟨rest, r2⟩ := pr
        rw [hrest] at h
        simp only [Option.some.injEq, Prod.mk.injEq] at h
        obtain ⟨hp, -⟩ := h
        subst hp
        intro c hc' g hg
        cases hc' with
        | head => exact create_random_chromosome_ok p r c0 r1 hc g hg
        | tail _ hmem => exact ih r1 rest r2 hrest c hmem g hg

/-- Genes grouped by class all come from the grouped gene list. -/
theorem genesByClass_vals (genes : List Gene) :
    ∀ kv ∈ genesByClass genes, ∀ g ∈ kv.2, g ∈ genes :=
  foldl_group_vals (· ∈ genes) (·.class_id) genes [] (by simp)
    (fun _ hy => hy)

/-- Crossover children only inherit genes of their parents, so they keep
the slot invariant. -/
theorem crossover_ok (params : GAParams) (c1 c2 : Chromosome) (rc : RNG)
    (ch1 ch2 : Chromosome) (rc2 : RNG) (p : Problem)
    (h : crossover params c1 c2 rc = some ((ch1, ch2), rc2))
    (h1 : ∀ g ∈ c1.genes, g.time_slot_id ∈ p.time_slots.map (·.id))
    (h2 : ∀ g ∈ c2.genes, g.time_slot_id ∈ p.time_slots.map (·.id)) :
    (∀ g ∈ ch1.genes, g.time_slot_id ∈ p.time_slots.map (·.id)) ∧
    (∀ g ∈ ch2.genes, g.time_slot_id ∈ p.time_slots.map (·.id)) := by
  unfold crossover at h
  simp only [randUnit] at h
  split_ifs at h with hrate
  · simp only [Option.some.injEq, Prod.mk.injEq] at h
    obtain ⟨⟨e1, e2⟩, -⟩ := h
    rw [← e1, ← e2]
    exact ⟨h1, h2⟩
  · cases hs : randSample
        (pyset ((genesByClass c1.genes).map (·.1) ++
          (genesByClass c2.genes).map (·.1)))
        ((pyset ((genesByClass c1.genes).map (·.1) ++
          (genesByClass c2.genes).map (·.1))).length / 2) (rngTail rc) with
    | none => rw [hs] at h; exact absurd h (by simp)
    | some pr =>
      obtain ⟨classes_to_swap, r2⟩ := pr
      rw [hs] at h
      simp only [Option.some.injEq, Prod.mk.injEq] at h
      obtain ⟨⟨e1, e2⟩, -⟩ := h
      constructor
      · intro g hg
        rw [← e1] at hg
        simp only [List.mem_flatten] at hg
        obtain ⟨l, hl, hgl⟩ := hg
        obtain ⟨cid, -, hleq⟩ := List.exists_of_mem_map hl
        rw [← hleq] at hgl
        split_ifs at hgl
        · exact h2 g (alookup_vals (· ∈ c2.genes) _ cid
            (genesByClass_vals c2.genes) g hgl)
        · exact h1 g (alookup_vals (· ∈ c1.genes) _ cid
            (genesByClass_vals c1.genes) g hgl)
      · intro g hg
        rw [← e2] at hg
        simp only [List.mem_flatten] at hg
        obtain ⟨l, hl, hgl⟩ := hg
        obtain ⟨cid, -, hleq⟩ := List.exists_of_mem_map hl
        rw [← hleq] at hgl
        split_ifs at hgl
        · exact h1 g (alookup_vals (· ∈ c1.genes) _ cid
            (genesByClass_vals c1.genes) g hgl)
        · exact h2 g (alookup_vals (· ∈ c2.genes) _ cid
            (genesByClass_vals c2.genes) g hgl)

/-- Mutation only moves existing slot values between genes, so it keeps
the slot invariant. -/
theorem mutate_slots_ok (p : Problem) (params : GAParams) (c : Chromosome)
    (rm : RNG)
    (hok : ∀ g ∈ c.genes, g.time_slot_id ∈ p.time_slots.map (·.id)) :
    ∀ g ∈ (mutate p params c rm).1.genes,
      g.time_slot_id ∈ p.time_slots.map (·.id) := by
  have key : ∀ out : Chromosome × RNG, mutate p params c rm = out →
      ∀ g ∈ out.1.genes, g.time_slot_id ∈ p.time_slots.map (·.id) := by
    intro out hout
    unfold mutate at hout
    simp only [copy_eq] at hout
    split at hout
    · subst hout; exact hok
    · split at hout
      · subst hout; exact hok
      · split at hout
        · split at hout
          · subst hout; exact hok
          · next i gene1 r3 heq1 =>
            split at hout
            · subst hout; exact hok
            · next j gene2 r4 heq2 =>
              subst hout
              intro g hg
              obtain ⟨hget2, -⟩ := choice_enum_filter_get heq2
              have hget1 : c.genes.get? i = some gene1 :=
                randChoiceIdx_get heq1
              simp only [] at hg
              cases List.mem_or_eq_of_mem_set hg with
              | inl hg1 =>
                cases List.mem_or_eq_of_mem_set hg1 with
                | inl hg2 => exact hok g hg2
                | inr hge =>
                  subst hge
                  exact hok gene2 (List.get?_mem hget2)
              | inr hge =>
                subst hge
                exact hok gene1 (List.get?_mem hget1)
        · split at hout
          · split at hout
            · subst hout; exact hok
            · next i gene r3 heq1 =>
              split at hout
              · subst hout; exact hok
              · split at hout
                · subst hout; exact hok
                · next fid r4 heq2 =>
                  subst hout
                  intro g hg
                  have hget1 : c.genes.get? i = some gene :=
                    randChoiceIdx_get heq1
                  simp only [] at hg
                  cases List.mem_or_eq_of_mem_set hg with
                  | inl hg1 => exact hok g hg1
                  | inr hge =>
                    subst hge
                    exact hok gene (List.get?_mem hget1)
          · split at hout
            · subst hout; exact hok
            · next i gene1 r3 heq1 =>
              split at hout
              · subst hout; exact hok
              · next j gene2 r4 heq2 =>
                subst hout
                intro g hg
                obtain ⟨hget2, -⟩ := choice_enum_filter_get heq2
                have hget1 : c.genes.get? i = some gene1 :=
                  randChoiceIdx_get heq1
                simp only [] at hg
                cases List.mem_or_eq_of_mem_set hg with
                | inl hg1 =>
                  cases List.mem_or_eq_of_mem_set hg1 with
                  | inl hg2 => exact hok g hg2
                  | inr hge =>
                    subst hge
                    exact hok gene1 (List.get?_mem hget1)
                | inr hge =>
                  subst hge
                  exact hok gene2 (List.get?_mem hget2)
  exact key _ rfl

/-- The tournament winner is a member of the population. -/
theorem tournament_selection_mem (params : GAParams)
    (pop : List Chromosome) (r : RNG) (c : Chromosome) (r' : RNG)
    (h : tournament_selection params pop r = some (c, r')) : c ∈ pop := by
  unfold tournament_selection at h
  cases hs : randSample pop (min params.tournament_size pop.length) r with
  | none => rw [hs] at h; exact absurd h (by simp)
  | some pr =>
    obtain ⟨sample, r1⟩ := pr
    rw [hs] at h
    simp only [] at h
    cases hmb : maxByFitness sample with
    | none => rw [hmb] at h; exact absurd h (by simp)
    | some m =>
      rw [hmb] at h
      simp only [Option.some.injEq, Prod.mk.injEq] at h
      obtain ⟨hc, -⟩ := h
      subst hc
      exact (randSample_spec _ pop r sample r1 hs).1 m
        (maxByFitness_spec sample m hmb).1

/-- Refilling the population only creates chromosomes satisfying the slot
invariant. -/
theorem fillPopulation_ok (p : Problem) (params : GAParams)
    (population : List Chromosome)
    (hpop : ∀ c ∈ population, ∀ g ∈ c.genes,
      g.time_slot_id ∈ p.time_slots.map (·.id)) :
    ∀ (fuel : Nat) (acc : List Chromosome) (r : RNG)
      (out : List Chromosome × RNG),
      fillPopulation p params population fuel acc r = some out →
      (∀ c ∈ acc, ∀ g ∈ c.genes,
        g.time_slot_id ∈ p.time_slots.map (·.id)) →
      ∀ c ∈ out.1, ∀ g ∈ c.genes,
        g.time_slot_id ∈ p.time_slots.map (·.id) := by
  intro fuel
  induction fuel with
  | zero =>
    intro acc r out h hacc
    simp only [fillPopulation, Option.some.injEq] at h
    subst h
    exact hacc
  | succ fuel ih =>
    intro acc r out h hacc
    unfold fillPopulation at h
    split_ifs at h with hfull
    · simp only [Option.some.injEq] at h
      subst h
      exact hacc
    · cases ht1 : tournament_selection params population r with
      | none => rw [ht1] at h; exact absurd h (by simp)
      | some pr1 =>
        obtain ⟨parent1, r1⟩ := pr1
        rw [ht1] at h
        simp only [] at h
        cases ht2 : tournament_selection params population r1 with
        | none => rw [ht2] at h; exact absurd h (by simp)
        | some pr2 =>
          obtain ⟨parent2, r2⟩ := pr2
          rw [ht2] at h
          simp only [] at h
          cases hx : crossover params parent1 parent2 r2 with
          | none => rw [hx] at h; exact absurd h (by simp)
          | some xr =>
            obtain ⟨⟨child1, child2⟩, r3⟩ := xr
            rw [hx] at h
            simp only [] at h
            rcases hmu1 : mutate p params child1 r3 with ⟨child1m, r4⟩
            rw [hmu1] at h
            simp only [] at h
            rcases hmu2 : mutate p params child2 r4 with ⟨child2m, r5⟩
            rw [hmu2] at h
            simp only [] at h
            have hp1 : ∀ g ∈ parent1.genes,
                g.time_slot_id ∈ p.time_slots.map (·.id) :=
              hpop parent1 (tournament_selection_mem params population
                r parent1 r1 ht1)
            have hp2 : ∀ g ∈ parent2.genes,
                g.time_slot_id ∈ p.time_slots.map (·.id) :=
              hpop parent2 (tournament_selection_mem params population
                r1 parent2 r2 ht2)
            obtain ⟨hch1, hch2⟩ := crossover_ok params parent1 parent2
              r2 child1 child2 r3 p hx hp1 hp2
            have hm1 : ∀ g ∈ child1m.genes,
                g.time_slot_id ∈ p.time_slots.map (·.id) := by
              have := mutate_slots_ok p params child1 r3 hch1
              rw [hmu1] at this
              exact this
            have hm2 : ∀ g ∈ child2m.genes,
                g.time_slot_id ∈ p.time_slots.map (·.id) := by
              have := mutate_slots_ok p params child2 r4 hch2
              rw [hmu2] at this
              exact this
            refine ih _ _ out h ?_
            intro cc hcc
            split_ifs at hcc with hlen
            · rw [List.mem_append] at hcc
              cases hcc with
              | inl hcc1 =>
                rw [List.mem_append] at hcc1
                cases hcc1 with
                | inl ha => exact hacc cc ha
                | inr hb =>
                  rw [List.mem_singleton] at hb
                  subst hb
                  exact hm1
              | inr hb =>
                rw [List.mem_singleton] at hb
                subst hb
                exact hm2
            · rw [List.mem_append] at hcc
              cases hcc with
              | inl ha => exact hacc cc ha
              | inr hb =>
                rw [List.mem_singleton] at hb
                subst hb
                exact hm1

/-- The generation loop returns an all-time best satisfying the slot
invariant whenever the running population and best do. -/
theorem evolveLoop_ok (p : Problem) (params : GAParams) :
    ∀ (gens : Nat) (pop : List Chromosome) (best : Chromosome)
      (hist : List ℚ) (r : RNG) (b : Chromosome) (h : List ℚ),
      evolveLoop p params gens pop best hist r = some (b, h) →
      (∀ c ∈ pop, ∀ g ∈ c.genes,
        g.time_slot_id ∈ p.time_slots.map (·.id)) →
      (∀ g ∈ best.genes, g.time_slot_id ∈ p.time_slots.map (·.id)) →
      ∀ g ∈ b.genes, g.time_slot_id ∈ p.time_slots.map (·.id) := by
  intro gens
  induction gens with
  | zero =>
    intro pop best hist r b h heq hpop hbest
    simp only [evolveLoop, Option.some.injEq, Prod.mk.injEq] at heq
    obtain ⟨hb, -⟩ := heq
    subst hb
    exact hbest
  | succ g ih =>
    intro pop best hist r b h heq hpop hbest
    unfold evolveLoop at heq
    simp only [] at heq
    cases hh : (sortByFitnessDesc pop).head? with
    | none => rw [hh] at heq; exact absurd heq (by simp)
    | some cb =>
      rw [hh] at heq
      simp only [] at heq
      have hsorted : ∀ c ∈ sortByFitnessDesc pop, ∀ g ∈ c.genes,
          g.time_slot_id ∈ p.time_slots.map (·.id) := by
        intro c hc
        exact hpop c ((List.perm_insertionSort _ pop).subset hc)
      have hcb : ∀ g ∈ cb.genes,
          g.time_slot_id ∈ p.time_slots.map (·.id) :=
        hsorted cb (List.mem_of_mem_head? (by rw [hh]; rfl))
      have hbest' : ∀ g ∈ (if best.fitness < cb.fitness then cb.copy
          else best).genes, g.time_slot_id ∈ p.time_slots.map (·.id) := by
        split_ifs
        · exact hcb
        · exact hbest
      by_cases h0 : (0 : ℚ) ≤ cb.fitness
      · rw [if_pos h0] at heq
        simp only [Option.some.injEq, Prod.mk.injEq] at heq
        obtain ⟨hb, -⟩ := heq
        subst hb
        exact hbest'
      · rw [if_neg h0] at heq
        by_cases hel : (sortByFitnessDesc pop).length < params.elite_count
        · rw [if_pos hel] at heq
          exact absurd heq (by simp)
        · rw [if_neg hel] at heq
          cases hfill : fillPopulation p params (sortByFitnessDesc pop)
              params.population_size
              ((List.take params.elite_count
                (sortByFitnessDesc pop)).map Chromosome.copy) r with
          | none => rw [hfill] at heq; exact absurd heq (by simp)
          | some npr =>
            rw [hfill] at heq
            refine ih npr.1 _ _ npr.2 b h heq ?_ hbest'
            intro c hc
            refine fillPopulation_ok p params (sortByFitnessDesc pop)
              hsorted params.population_size _ r npr hfill ?_ c hc
            intro c' hc' g hg
            obtain ⟨c0, hc0, hceq⟩ := List.exists_of_mem_map hc'
            rw [← hceq] at hg
            exact hsorted c0 (List.mem_of_mem_take hc0) g hg

/-- The Boolean slot check unpacked. -/
theorem slotsOkB_iff (p : Problem) (c : Chromosome) :
    slotsOkB p c = true ↔
    ∀ g ∈ c.genes, g.time_slot_id ∈ p.time_slots.map (·.id) := by
  simp [slotsOkB, List.all_eq_true]

/-- C8: every chromosome the engine produces satisfies the slot
invariant: all genes of every initial-population member, of the returned
all-time best of `evolve`, of any mutant of a compliant chromosome, and of
both crossover offspring of compliant parents use time-slot ids of the 35
loaded teaching slots — never a lunch slot or an unknown id. -/
theorem c8_engine_slot_invariant (p : Problem) (params : GAParams)
    (r rm rc : RNG) (pop : List Chromosome) (r2 : RNG) (best : Chromosome)
    (hist : List ℚ) (c c1 c2 ch1 ch2 : Chromosome) (rc2 : RNG)
    (hpop : init_population p params.population_size r = some (pop, r2))
    (hev : evolve p params r = some (best, hist))
    (hc : slotsOkB p c = true) (h1 : slotsOkB p c1 = true)
    (h2 : slotsOkB p c2 = true)
    (hx : crossover params c1 c2 rc = some ((ch1, ch2), rc2)) :
    pop.all (slotsOkB p) = true ∧ slotsOkB p best = true ∧
    slotsOkB p (mutate p params c rm).1 = true ∧
    slotsOkB p ch1 = true ∧ slotsOkB p ch2 = true := by
  have hpopok := init_population_ok p params.population_size r pop r2 hpop
  have hxok := crossover_ok params c1 c2 rc ch1 ch2 rc2 p hx
    ((slotsOkB_iff p c1).mp h1) ((slotsOkB_iff p c2).mp h2)
  refine ⟨?_, ?_, ?_, (slotsOkB_iff p ch1).mpr hxok.1,
    (slotsOkB_iff p ch2).mpr hxok.2⟩
  · simp only [List.all_eq_true]
    intro cc hcc
    exact (slotsOkB_iff p cc).mpr (hpopok cc hcc)
  · unfold evolve at hev
    rw [hpop] at hev
    simp only [] at hev
    cases hmb : maxByFitness (pop.map (applyFitness p)) with
    | none => rw [hmb] at hev; exact absurd hev (by simp)
    | some best0 =>
      rw [hmb] at hev
      have hmapok : ∀ cc ∈ pop.map (applyFitness p), ∀ g ∈ cc.genes,
          g.time_slot_id ∈ p.time_slots.map (·.id) := by
        intro cc hcc g hg
        obtain ⟨c0, hc0, hceq⟩ := List.exists_of_mem_map hcc
        rw [← hceq] at hg
        exact hpopok c0 hc0 g hg
      have hbest0 : ∀ g ∈ best0.genes,
          g.time_slot_id ∈ p.time_slots.map (·.id) :=
        hmapok best0 (maxByFitness_spec _ best0 hmb).1
      exact (slotsOkB_iff p best).mpr
        (evolveLoop_ok p params params.generations
          (pop.map (applyFitness p)) best0 [] r2 best hist hev
          hmapok hbest0)
  · exact (slotsOkB_iff p _).mpr
      (mutate_slots_ok p params c rm ((slotsOkB_iff p c).mp hc))

/-- Witness for C8 on the two-slot problem: a run that places a real
gene, a mutation of its best chromosome and a crossover of two one-gene
parents. -/
theorem c8_engine_slot_invariant_witness :
    ([t8Chromosome, t8Chromosome] : List Chromosome).all
      (slotsOkB t8Problem) = true ∧
    slotsOkB t8Problem t8Chromosome = true ∧
    slotsOkB t8Problem
      (mutate t8Problem tinyParams t8Chromosome rng0).1 = true ∧
    slotsOkB t8Problem t8Chromosome = true ∧
    slotsOkB t8Problem t8Chromosome2 = true :=
  c8_engine_slot_invariant t8Problem tinyParams rng0 rng0 rng0
    [t8Chromosome, t8Chromosome] rng0 t8Chromosome [0] t8Chromosome
    t8Chromosome t8Chromosome2 t8Chromosome t8Chromosome2 rng0
    rfl (by decide) (by decide) (by decide) (by decide) rfl

end EduPlanner
